import Mathlib

/-!
# Verification of the Purdue-Data-Mine-2024 mismatch-generation scripts

Shallow embedding of the core of the repository:

* the date normalizer `convert_to_iso_8601`, the editions fetcher loop
  `get_editions_publication_dates`, the reducer `find_earliest_date` and the
  comparator `compare_values` from
  `MismatchGeneration/1_mismatch_generations/Open Library Mismatches/
  OL-Publication-Date-Mismatch-Generation.py`;
* the schema validator `check_mf_formatting` and `validate_url` from
  `MismatchGeneration/utils.py` (the near-identical copy in
  `check_mismatch_file.py` has the same `_validate_url` body);
* the size gate and `np.array_split` based splitting of
  `split_mismatch_file.py`.

Strings are modelled at the level of Lean `Char` lists (ASCII digits and
whitespace stand in for the Unicode classes of Python's `re`), Python `None`
and pandas nulls are modelled by `Option`, and a raised `ValueError` by
`Except.error`.
-/

/-! ## Python `datetime.strptime`, restricted to the Open Library format list

The normalizer calls `datetime.strptime(date_str, fmt)` for each `fmt` in a
fixed 13-element list.  CPython's `_strptime` compiles a format to a regex
(`re.IGNORECASE`): a whitespace run in the format becomes `\s+`, `%Y` becomes
`\d\d\d\d`, `%m` becomes `1[0-2]|0[1-9]|[1-9]`, `%d` becomes
`3[01]|[12]\d|0[1-9]|[1-9]`, `%B`/`%b` become alternations of the (lower-cased,
length-sorted) month names, and any other character is matched literally.  The
whole input must be consumed (`found.end() == len(data_string)`), and the
parsed fields are then passed to the `datetime` constructor, which raises
`ValueError` unless `MINYEAR <= year`, `1 <= month <= 12` and
`1 <= day <= days_in_month(year, month)`.

The formats only ever follow a digit-consuming directive by a non-digit
token (or the end of the input), so the regex backtracking inside `%m`/`%d`
(two-digit alternatives first, then `[1-9]`) is rendered faithfully by an
`Option.orElse` of the two arities.  No month name is a prefix of another
month name inside either alternation, so the name alternation is rendered by
the first name that matches.
-/

/-- Numeric value of an ASCII digit character. -/
def dval (c : Char) : Nat := c.toNat - 48

/-- One token of a compiled `strptime` format. -/
inductive Tok : Type
  | Y : Tok
  | M : Tok
  | D : Tok
  | B : Tok
  | Bab : Tok
  | lit : Char → Tok
  | ws : Tok
deriving DecidableEq

/-- The fields `strptime` extracts (time-of-day directives never occur in the
formats used by the repository, so hours/minutes/seconds stay zero). -/
structure DT : Type where
  y : Nat
  m : Nat
  d : Nat
deriving DecidableEq, Repr

/-- The default field values of `_strptime` (year 1900, January 1). -/
def dtDefault : DT := ⟨1900, 1, 1⟩

/-- Strip a (lower-case) month name from the front of the input,
case-insensitively; returns the rest of the input on success. -/
def stripName : List Char → List Char → Option (List Char)
  | [], s => some s
  | _ :: _, [] => none
  | n :: nm, c :: s => if c.toLower = n then stripName nm s else none

/-- First name of the alternation that matches; CPython sorts the names by
decreasing length, and no name is a prefix of another, so at most one
name can match and the order is immaterial. -/
def matchName : List (List Char × Nat) → List Char → Option (Nat × List Char)
  | [], _ => none
  | (nm, mo) :: rest, s =>
    match stripName nm s with
    | some s' => some (mo, s')
    | none => matchName rest s

/-- The full English month names (`%B`), sorted by decreasing length as in
`_strptime.TimeRE.__seqToRE`. -/
def monthsFull : List (List Char × Nat) :=
  [("september".data, 9), ("february".data, 2), ("november".data, 11),
   ("december".data, 12), ("january".data, 1), ("october".data, 10),
   ("august".data, 8), ("april".data, 4), ("march".data, 3),
   ("july".data, 7), ("june".data, 6), ("may".data, 5)]

/-- The abbreviated English month names (`%b`), all of length three. -/
def monthsAbbr : List (List Char × Nat) :=
  [("jan".data, 1), ("feb".data, 2), ("mar".data, 3), ("apr".data, 4),
   ("may".data, 5), ("jun".data, 6), ("jul".data, 7), ("aug".data, 8),
   ("sep".data, 9), ("oct".data, 10), ("nov".data, 11), ("dec".data, 12)]

/-- Run the compiled format (a token list) over the input.  For `%m`/`%d` the
two-digit regex alternatives are tried (with the whole continuation) before
the one-digit `[1-9]` alternative, exactly as `re` backtracks. -/
def parseToks : List Tok → DT → List Char → Option DT
  | [], st, s => if s.isEmpty then some st else none
  | Tok.Y :: r, st, s =>
    match s with
    | a :: b :: c :: e :: s' =>
      if a.isDigit ∧ b.isDigit ∧ c.isDigit ∧ e.isDigit then
        parseToks r { st with y := 1000 * dval a + 100 * dval b + 10 * dval c + dval e } s'
      else none
    | _ => none
  | Tok.M :: r, st, s =>
    (match s with
     | d1 :: d2 :: s' =>
       if d1.isDigit ∧ d2.isDigit ∧ 1 ≤ 10 * dval d1 + dval d2 ∧ 10 * dval d1 + dval d2 ≤ 12 then
         parseToks r { st with m := 10 * dval d1 + dval d2 } s'
       else none
     | _ => none)
    <|>
    (match s with
     | d1 :: s' =>
       if d1.isDigit ∧ 1 ≤ dval d1 then parseToks r { st with m := dval d1 } s' else none
     | [] => none)
  | Tok.D :: r, st, s =>
    (match s with
     | d1 :: d2 :: s' =>
       if d1.isDigit ∧ d2.isDigit ∧ 1 ≤ 10 * dval d1 + dval d2 ∧ 10 * dval d1 + dval d2 ≤ 31 then
         parseToks r { st with d := 10 * dval d1 + dval d2 } s'
       else none
     | _ => none)
    <|>
    (match s with
     | d1 :: s' =>
       if d1.isDigit ∧ 1 ≤ dval d1 then parseToks r { st with d := dval d1 } s' else none
     | [] => none)
  | Tok.B :: r, st, s =>
    match matchName monthsFull s with
    | some (mo, s') => parseToks r { st with m := mo } s'
    | none => none
  | Tok.Bab :: r, st, s =>
    match matchName monthsAbbr s with
    | some (mo, s') => parseToks r { st with m := mo } s'
    | none => none
  | Tok.lit c :: r, st, s =>
    match s with
    | x :: s' => if x = c then parseToks r st s' else none
    | [] => none
  | Tok.ws :: r, st, s =>
    match s with
    | x :: _ =>
      if x.isWhitespace then parseToks r st (s.dropWhile Char.isWhitespace) else none
    | [] => none

/-- Whether a year is a leap year (`calendar.isleap`). -/
def isLeap (y : Nat) : Bool := y % 4 = 0 ∧ (y % 100 ≠ 0 ∨ y % 400 = 0)

/-- Days in a month, as enforced by the `datetime` constructor. -/
def daysInMonth (y m : Nat) : Nat :=
  if m = 2 then (if isLeap y then 29 else 28)
  else if m = 4 ∨ m = 6 ∨ m = 9 ∨ m = 11 then 30
  else 31

/-- The `datetime(year, month, day)` constructor's range check. -/
def dtValid (dt : DT) : Prop :=
  1 ≤ dt.y ∧ dt.y ≤ 9999 ∧ 1 ≤ dt.m ∧ dt.m ≤ 12 ∧ 1 ≤ dt.d ∧ dt.d ≤ daysInMonth dt.y dt.m

instance (dt : DT) : Decidable (dtValid dt) := by
  unfold dtValid; infer_instance

/-- `datetime.strptime(s, fmt)` for a compiled format: run the regex over the
whole input, then validate the fields as the `datetime` constructor does;
`none` models a raised `ValueError`. -/
def strptime (fmt : List Tok) (s : String) : Option DT :=
  match parseToks fmt dtDefault s.data with
  | some dt => if dtValid dt then some dt else none
  | none => none

/-- `"%Y"` -/
def fmtY : List Tok := [Tok.Y]
/-- `"%Y-%m"` -/
def fmtYm : List Tok := [Tok.Y, Tok.lit '-', Tok.M]
/-- `"%Y-%m-%d"` -/
def fmtYmd : List Tok := [Tok.Y, Tok.lit '-', Tok.M, Tok.lit '-', Tok.D]
/-- `"%B %d, %Y"` -/
def fmtBdcY : List Tok := [Tok.B, Tok.ws, Tok.D, Tok.lit ',', Tok.ws, Tok.Y]
/-- `"%b %d, %Y"` -/
def fmtbdcY : List Tok := [Tok.Bab, Tok.ws, Tok.D, Tok.lit ',', Tok.ws, Tok.Y]
/-- `"%B %d %Y"` -/
def fmtBdY : List Tok := [Tok.B, Tok.ws, Tok.D, Tok.ws, Tok.Y]
/-- `"%b %d %Y"` -/
def fmtbdY : List Tok := [Tok.Bab, Tok.ws, Tok.D, Tok.ws, Tok.Y]
/-- `"%d %B %Y"` -/
def fmtdBY : List Tok := [Tok.D, Tok.ws, Tok.B, Tok.ws, Tok.Y]
/-- `"%d %b %Y"` -/
def fmtdbY : List Tok := [Tok.D, Tok.ws, Tok.Bab, Tok.ws, Tok.Y]
/-- `"%B %Y"` -/
def fmtBY : List Tok := [Tok.B, Tok.ws, Tok.Y]
/-- `"%b %Y"` -/
def fmtbY : List Tok := [Tok.Bab, Tok.ws, Tok.Y]
/-- `"%Y %B"` -/
def fmtYB : List Tok := [Tok.Y, Tok.ws, Tok.B]
/-- `"%Y %b"` -/
def fmtYb : List Tok := [Tok.Y, Tok.ws, Tok.Bab]

/-- The `formats` list of `convert_to_iso_8601`, in source order:
`["%Y", "%Y-%m", "%Y-%m-%d", "%B %d, %Y", "%b %d, %Y", "%B %d %Y",
"%b %d %Y", "%d %B %Y", "%d %b %Y", "%B %Y", "%b %Y", "%Y %B", "%Y %b"]`. -/
def formats : List (List Tok) :=
  [fmtY, fmtYm, fmtYmd, fmtBdcY, fmtbdcY, fmtBdY, fmtbdY, fmtdBY, fmtdbY,
   fmtBY, fmtbY, fmtYB, fmtYb]

/-- ASCII character of a decimal digit. -/
def digitChar (n : Nat) : Char := Char.ofNat (48 + n)

/-- Decimal digits of a number, most significant first, without padding
(glibc `strftime` does not zero-pad `%Y`).  Spelled out for the at most four
digits a `strptime`-produced year (`≤ 9999`) can have. -/
def natDigits (n : Nat) : List Char :=
  if n < 10 then [digitChar n]
  else if n < 100 then [digitChar (n / 10), digitChar (n % 10)]
  else if n < 1000 then [digitChar (n / 100), digitChar (n / 10 % 10), digitChar (n % 10)]
  else [digitChar (n / 1000), digitChar (n / 100 % 10), digitChar (n / 10 % 10),
        digitChar (n % 10)]

/-- Two-digit zero-padded rendering (`%m`, `%d`). -/
def pad2 (n : Nat) : List Char := [digitChar (n / 10), digitChar (n % 10)]

/-- `date_obj.strftime("%Y-%m-%dT%H:%M:%SZ")`: the time-of-day is always
zero because no format in the list contains a time directive. -/
def isoStr (dt : DT) : String :=
  ⟨natDigits dt.y ++ '-' :: pad2 dt.m ++ '-' :: pad2 dt.d ++ "T00:00:00Z".data⟩

/-- `convert_to_iso_8601(date_str)`: tries every format in `formats`; the
loop has no `break`, so `date_obj` holds the result of the *last* format
that parsed without a `ValueError`; `None` if no format matched. -/
def convert_to_iso_8601 (date_str : String) : Option String :=
  match formats.foldl
      (fun date_obj fmt => strptime fmt date_str <|> date_obj)
      (none : Option DT) with
  | none => none
  | some dt => some (isoStr dt)

/-- The normalizer as the specification words it: the result of the *first*
format in the priority list that successfully parses the string (used to
compare the source's fold against the spec's description). -/
def convert_first_success (date_str : String) : Option String :=
  (formats.findSome? (fun fmt => strptime fmt date_str)).map isoStr

/-! ## The Open Library mismatch-generation pipeline -/

/-- A Python `datetime` value as the comparator sees it (naive; the pipeline
always has zero time-of-day, but `compare_values` compares whole objects, so
the time fields are kept). -/
structure PyDateTime : Type where
  year : Nat
  month : Nat
  day : Nat
  hour : Nat
  minute : Nat
  second : Nat
deriving DecidableEq, Repr

/-- `compare_values(wd_date, ol_date)`: object equality, else the
year-precision tolerance branch, else `False`. -/
def compare_values (wd_date ol_date : PyDateTime) : Bool :=
  if wd_date ≠ ol_date then
    if wd_date.year = ol_date.year then
      if (ol_date.day = 1 ∧ ol_date.month = 1) ∧
          ((wd_date.month ≠ 1) ∨ (wd_date.month = 1 ∧ wd_date.day ≠ 1)) then
        true
      else
        false
    else
      false
  else
    true

/-- The loop body of `get_editions_publication_dates`, applied to the
`publish_date` field of each entry of the decoded editions response (the
HTTP/JSON layer is outside the embedding; its failure branches return
`None` before this loop runs).  A missing `publish_date` hits `continue`;
a present one is converted and appended — even when the conversion itself
returns `None`. -/
def pubStep (acc : List (Option String)) (publish_date : Option String) :
    List (Option String) :=
  match publish_date with
  | none => acc
  | some d => acc ++ [convert_to_iso_8601 d]

/-- The `pub_dates` list accumulated by the loop of
`get_editions_publication_dates`. -/
def pub_dates_of (entries : List (Option String)) : List (Option String) :=
  entries.foldl pubStep ([] : List (Option String))

/-- The `if pub_dates: return pub_dates / else: return None` tail of
`get_editions_publication_dates`. -/
def get_editions_publication_dates (entries : List (Option String)) :
    Option (List (Option String)) :=
  if (pub_dates_of entries).isEmpty then none else some (pub_dates_of entries)

/-- `find_earliest_date(edition_pub_dates)`: `None` input propagates, non-`None`
entries are collected, and Python's `min` (first minimal element in the
string order, which compares code points) is taken when any remain. -/
def validStep (acc : List String) (date : Option String) : List String :=
  match date with
  | some x => acc ++ [x]
  | none => acc

/-- The `valid_dates` list accumulated by the loop of `find_earliest_date`. -/
def valid_dates_of (l : List (Option String)) : List String :=
  l.foldl validStep ([] : List String)

/-- The case split of `find_earliest_date` over the `None` input, the
no-valid-dates case and the `min` call. -/
def find_earliest_date (edition_pub_dates : Option (List (Option String))) :
    Option String :=
  match edition_pub_dates with
  | none => none
  | some l =>
    match valid_dates_of l with
    | [] => none
    | v :: rest => some (rest.foldl (fun cur x => if x < cur then x else cur) v)

/-! ## The Mismatch Finder schema validator

`check_mf_formatting` receives a pandas `DataFrame`.  A frame is modelled as
its column-name list plus a list of rows over the eight known fields; each
cell is `Option String` (`none` is a pandas null).  The code only touches a
named column under a guard that the name is in `df.columns`, so carrying all
eight fields in every row is harmless. -/

/-- One row of a mismatch frame. -/
structure MFRow : Type where
  item_id : Option String
  statement_guid : Option String
  property_id : Option String
  wikidata_value : Option String
  meta_wikidata_value : Option String
  external_value : Option String
  external_url : Option String
  type : Option String
deriving DecidableEq, Repr

/-- A mismatch frame: the column labels in order, and the rows. -/
structure MFDataFrame : Type where
  columns : List String
  rows : List MFRow
deriving DecidableEq, Repr

/-- `pd.isnull` on a cell. -/
def pdIsnull (v : Option String) : Bool := v.isNone

/-- Python's `x is None` applied to the *result of `pd.isnull`*: `pd.isnull`
returns a Boolean, and a Boolean is never the `None` singleton, so this test
is `false` for every input.  (`validate_url` spells `pd.isnull(url) is None`
where its docstring describes a null check.) -/
def boolIsNone (_b : Bool) : Bool := false

/-- `urlparse(s).scheme ≠ "" ∧ urlparse(s).netloc ≠ ""`, i.e.
`all([url_parse.scheme, url_parse.netloc])`: the string has a valid scheme
prefix before a `:` and a non-empty authority after `//`. -/
def urlHasSchemeAndNetloc (s : String) : Bool :=
  match s.data.findIdx? (· = ':') with
  | none => false
  | some i =>
    let scheme := s.data.take i
    match scheme with
    | [] => false
    | c :: cs =>
      c.isAlpha && cs.all (fun x => x.isAlphanum ∨ x = '+' ∨ x = '-' ∨ x = '.') &&
        (match s.data.drop (i + 1) with
         | '/' :: '/' :: rest =>
           !(rest.takeWhile (fun x => x ≠ '/' ∧ x ≠ '?' ∧ x ≠ '#')).isEmpty
         | _ => false)

/-- `validate_url(url)` from `utils.py` (identical to `_validate_url` in
`check_mismatch_file.py`): because the condition is `pd.isnull(url) is None`,
the URL branch is dead code and the function returns `True` for every
input. -/
def validate_url (url : Option String) : Bool :=
  if boolIsNone (pdIsnull url) then
    (match url with
     | some s => urlHasSchemeAndNetloc s
     | none => false)
  else
    true

/-- `df[c].astype(str)` on one cell: a pandas null prints as `"nan"`. -/
def astypeStr (v : Option String) : String :=
  match v with
  | some s => s
  | none => "nan"

/-- `re.match(r"^X\d+$", s)` for a prefix character `X`: the string is `X`
followed by one or more ASCII digits; Python's `$` also matches just before
one trailing newline. -/
def idMatchCore (x : Char) (cs : List Char) : Bool :=
  match cs with
  | c :: rest => c = x ∧ !rest.isEmpty ∧ rest.all Char.isDigit
  | [] => false

/-- `s.str.match(r"^X\d+$")` on one cell, `$` tolerating a final newline. -/
def idMatch (x : Char) (s : String) : Bool :=
  idMatchCore x s.data ||
    (match s.data.getLast? with
     | some '\n' => idMatchCore x s.data.dropLast
     | _ => false)

/-- The required column list of check 1. -/
def required_columns : List String :=
  ["item_id", "statement_guid", "property_id", "wikidata_value",
   "meta_wikidata_value", "external_value", "external_url", "type"]

/-- `"'" + "', '".join(required_columns) + "'"`. -/
def required_columns_string : String :=
  "'" ++ String.intercalate "', '" required_columns ++ "'"

/-- Check 1 fires when the column list is not exactly the required one. -/
def cond_columns (df : MFDataFrame) : Bool := df.columns ≠ required_columns

/-- Column access for the two id columns of check 2. -/
def idColumnValues (df : MFDataFrame) (c : String) : List (Option String) :=
  if c = "item_id" then df.rows.map (·.item_id)
  else df.rows.map (·.property_id)

/-- `id_columns_included = [c for c in id_columns if c in df.columns]`. -/
def id_columns_included (df : MFDataFrame) : List String :=
  (["item_id", "property_id"]).filter (fun c => df.columns.contains c)

/-- The columns of check 2 whose `.str.match(...).all()` is not `True`. -/
def columns_with_invalid_ids (df : MFDataFrame) : List String :=
  (id_columns_included df).filter (fun c =>
    if c = "item_id" then
      !((idColumnValues df c).all (fun v => idMatch 'Q' (astypeStr v)))
    else
      !((idColumnValues df c).all (fun v => idMatch 'P' (astypeStr v))))

/-- Column access for the three required-value columns of check 3. -/
def requiredColumnValues (df : MFDataFrame) (c : String) : List (Option String) :=
  if c = "item_id" then df.rows.map (·.item_id)
  else if c = "property_id" then df.rows.map (·.property_id)
  else df.rows.map (·.external_value)

/-- `required_value_columns_included` of check 3. -/
def required_value_columns_included (df : MFDataFrame) : List String :=
  (["item_id", "property_id", "external_value"]).filter
    (fun c => df.columns.contains c)

/-- The columns of check 3 that contain a null. -/
def columns_with_nulls (df : MFDataFrame) : List String :=
  (required_value_columns_included df).filter
    (fun c => (requiredColumnValues df c).any (fun v => pdIsnull v))

/-- `check_empty_value_list` of check 4: per row, `wikidata_value` non-null
while `statement_guid` is null. -/
def check_empty_value_list (df : MFDataFrame) : List Bool :=
  df.rows.map (fun r => !pdIsnull r.wikidata_value ∧ pdIsnull r.statement_guid)

/-- Check 4 fires (it only runs when both columns are present). -/
def cond_guid (df : MFDataFrame) : Bool :=
  df.columns.contains "statement_guid" ∧ df.columns.contains "wikidata_value" ∧
    (check_empty_value_list df).contains true

/-- `url_validation_checks` of check 5. -/
def url_validation_checks (df : MFDataFrame) : List Bool :=
  (df.rows.map (·.external_url)).map validate_url

/-- Check 5 fires when some URL fails `validate_url`. -/
def cond_urls (df : MFDataFrame) : Bool :=
  df.columns.contains "external_url" ∧ (url_validation_checks df).contains false

/-- The offending URLs listed by check 5's message (raw cell values as the
f-string prints them: a null prints as `"nan"`). -/
def invalid_urls (df : MFDataFrame) : List String :=
  ((df.rows.map (·.external_url)).filter (fun u => !validate_url u)).map astypeStr

/-- Check 6 fires when some `type` value is outside
`{"statement", "qualifier", NaN}` (the subset test over the column's unique
values holds iff every value is allowed). -/
def cond_types (df : MFDataFrame) : Bool :=
  df.columns.contains "type" ∧
    (df.rows.map (·.type)).any
      (fun t => t ≠ some "statement" ∧ t ≠ some "qualifier" ∧ t ≠ none)

/-- Column access for the three length-checked columns of check 7. -/
def lengthColumnValues (df : MFDataFrame) (c : String) : List (Option String) :=
  if c = "wikidata_value" then df.rows.map (·.wikidata_value)
  else if c = "external_value" then df.rows.map (·.external_value)
  else df.rows.map (·.external_url)

/-- `check_value_length_columns_included` of check 7. -/
def check_value_length_columns_included (df : MFDataFrame) : List String :=
  (["wikidata_value", "external_value", "external_url"]).filter
    (fun c => df.columns.contains c)

/-- The columns of check 7 with a value over 1,500 characters
(`df[c].str.len() > 1500` is `False` on a null). -/
def columns_with_too_long_values (df : MFDataFrame) : List String :=
  (check_value_length_columns_included df).filter (fun c =>
    (lengthColumnValues df c).any
      (fun v => match v with | some s => 1500 < s.length | none => false))

/-- The `+=`-loop that lists column names under a check's message. -/
def appendItems (base : String) (items : List String) : String :=
  items.foldl (fun acc c => acc ++ "\n    - " ++ c) base

/-- Message of check 1. -/
def msg_columns : String :=
  "Please check that the following columns are present in this exact order:\n    "
    ++ required_columns_string

/-- Message of check 2. -/
def msg_invalid_ids (df : MFDataFrame) : String :=
  appendItems "Please assure that the following columns have valid ids:"
    (columns_with_invalid_ids df)

/-- Message of check 3. -/
def msg_nulls (df : MFDataFrame) : String :=
  appendItems "Please assure that the following columns do not have null values:"
    (columns_with_nulls df)

/-- Message of check 4 (a fixed string). -/
def msg_guid : String :=
  "Please assure that `statement_guid` is null only in cases where `wikidata_value` is as well."

/-- Message of check 5. -/
def msg_urls (df : MFDataFrame) : String :=
  appendItems
    "Please check the following URLs in `external_url` to make sure that they're valid:"
    (invalid_urls df)

/-- Message of check 6 (a fixed string). -/
def msg_types : String :=
  "Please check that the `type` column contains only: 'statement', 'qualifier' or a null value."

/-- Message of check 7. -/
def msg_too_long (df : MFDataFrame) : String :=
  appendItems
    "Please assure that the following columns do not have values over 1,500 characters:"
    (columns_with_too_long_values df)

/-- The `correction_instruction` list accumulated by the seven checks, in
source order; every check appends at most one message and never stops the
following checks. -/
def correction_instruction (df : MFDataFrame) : List String :=
  (if cond_columns df then [msg_columns] else [])
    ++ (if columns_with_invalid_ids df ≠ [] then [msg_invalid_ids df] else [])
    ++ (if columns_with_nulls df ≠ [] then [msg_nulls df] else [])
    ++ (if cond_guid df then [msg_guid] else [])
    ++ (if cond_urls df then [msg_urls df] else [])
    ++ (if cond_types df then [msg_types] else [])
    ++ (if columns_with_too_long_values df ≠ [] then [msg_too_long df] else [])

/-- `df_formatted_correctly`: the flag is cleared exactly by the checks that
append a correction instruction. -/
def df_formatted_correctly (df : MFDataFrame) : Bool :=
  (correction_instruction df).isEmpty

/-- `mf_file_creation_directions()`. -/
def mf_file_creation_directions : String :=
  "\nThere's a problem with the DataFrame. Please see the Mismatch Finder file creation directions on GitHub:\n\nhttps://github.com/wmde/wikidata-mismatch-finder/blob/main/docs/UserGuide.md#creating-a-mismatches-import-file\n\nDirections on how to fix the DataFrame are also detailed below:\n"

/-- `"".join(f"\n{i+1}. {correction_instruction[i]}\n" for i in range(...))`. -/
def numberInstructions (i : Nat) (l : List String) : String :=
  match l with
  | [] => ""
  | m :: rest =>
    "\n" ++ Nat.repr i ++ ". " ++ m ++ "\n" ++ numberInstructions (i + 1) rest

/-- `check_mf_formatting(df)`: raises `ValueError` with the aggregated
message when any check failed, otherwise prints the success line. -/
def check_mf_formatting (df : MFDataFrame) : Except String Unit :=
  if df_formatted_correctly df then
    Except.ok ()
  else
    Except.error
      (mf_file_creation_directions ++ numberInstructions 1 (correction_instruction df))

/-! ## `split_mismatch_file.py` -/

/-- `mf_size = os.path.getsize(MISMATCH_FILE) >> 20`: the byte size floored
to whole mebibytes. -/
def mf_size (fileSizeBytes : Nat) : Nat := fileSizeBytes >>> 20

/-- The size gate `assert mf_size > 10`. -/
def size_assert_passes (fileSizeBytes : Nat) : Bool := 10 < mf_size fileSizeBytes

/-- `number_of_split_mismatch_files = int(mf_size / 10) + (mf_size % 10 > 0)`
(the float division is exact enough to truncate to the integer quotient for
any realistic file size). -/
def number_of_split_mismatch_files (mfSize : Nat) : Nat :=
  mfSize / 10 + (if mfSize % 10 > 0 then 1 else 0)

/-- The section sizes `np.array_split` uses: `l % n` sections of size
`l / n + 1` followed by `n - l % n` sections of size `l / n`. -/
def splitSizes (total parts : Nat) : List Nat :=
  List.replicate (total % parts) (total / parts + 1)
    ++ List.replicate (parts - total % parts) (total / parts)

/-- Cut successive chunks of the given sizes from the row list. -/
def takeChunks : List Nat → List α → List (List α)
  | [], _ => []
  | sz :: rest, l => l.take sz :: takeChunks rest (l.drop sz)

/-- `np.array_split(rows, n)` on the row sequence of the frame. -/
def array_split (rows : List α) (n : Nat) : List (List α) :=
  takeChunks (splitSizes rows.length n) rows

/-- Instant encoding of a parsed date: lexicographic in (year, month, day);
the time-of-day of every value in the pipeline is zero, so this is the
chronological order of the instants. -/
def dtKey (dt : DT) : Nat := dt.y * 10000 + dt.m * 100 + dt.d

/-- The shape of the candidate strings the reducer receives in the pipeline:
ISO renderings of dates with a four-digit year. -/
def isoInRange (dt : DT) : Prop :=
  1000 ≤ dt.y ∧ dt.y ≤ 9999 ∧ 1 ≤ dt.m ∧ dt.m ≤ 12 ∧ 1 ≤ dt.d ∧ dt.d ≤ 31

/-- The claim C1 batch: a single row whose `item_id` is the invalid `"X1"`
and whose `external_url` is `"not-a-url"`, all other fields well-formed. -/
def c1Frame : MFDataFrame :=
  ⟨required_columns,
   [⟨some "X1", some "Q1$abc", some "P577", some "2022-04-15T00:00:00Z",
     none, some "2022-01-01T00:00:00Z", some "not-a-url", some "statement"⟩]⟩

/-- The claim C2 batch: a fully well-formed row except that its
`external_url` is the non-absolute `"not-a-url"`. -/
def c2Frame : MFDataFrame :=
  ⟨required_columns,
   [⟨some "Q1", some "Q1$abc", some "P577", some "2022-04-15T00:00:00Z",
     none, some "2022-01-01T00:00:00Z", some "not-a-url", some "statement"⟩]⟩

/-- A batch with a non-null `wikidata_value` next to a null
`statement_guid`, used to exercise check 4. -/
def c7Frame : MFDataFrame :=
  ⟨required_columns,
   [⟨some "Q1", none, some "P577", some "2020", none, some "x", none, none⟩]⟩

/-! ## Shared lemmas -/

/-- The append-accumulator loop of the fetcher factors through `filterMap`. -/
theorem foldl_pubStep (entries : List (Option String)) (acc : List (Option String)) :
    entries.foldl pubStep acc = acc ++ (entries.filterMap id).map convert_to_iso_8601 := by
  induction entries generalizing acc with
  | nil => simp
  | cons e rest ih =>
    cases e with
    | none => simpa [pubStep] using ih acc
    | some d => simp [pubStep, ih, List.append_assoc]

/-- The append-accumulator loop of the reducer factors through `filterMap`. -/
theorem foldl_validStep (l : List (Option String)) (acc : List String) :
    l.foldl validStep acc = acc ++ l.filterMap id := by
  induction l generalizing acc with
  | nil => simp
  | cons e rest ih =>
    cases e with
    | none => simpa [validStep] using ih acc
    | some d => simp [validStep, ih, List.append_assoc]

/-- Python's `min` over a nonempty list: the fold keeps the first minimal
element. -/
theorem foldl_min_spec (v : String) (rest : List String) :
    (rest.foldl (fun cur x => if x < cur then x else cur) v) ∈ v :: rest ∧
      ∀ x ∈ v :: rest, ¬ x < rest.foldl (fun cur x => if x < cur then x else cur) v := by
  induction rest generalizing v with
  | nil => simp
  | cons a t ih =>
    have step : (a :: t).foldl (fun cur x => if x < cur then x else cur) v
        = t.foldl (fun cur x => if x < cur then x else cur) (if a < v then a else v) := by
      simp [List.foldl_cons]
    rcases ih (if a < v then a else v) with ⟨hmem, hmin⟩
    have hcase : (if a < v then a else v) = a ∨ (if a < v then a else v) = v := by
      split_ifs <;> simp
    have hlev : (if a < v then a else v) ≤ v := by
      split_ifs with h
      · exact le_of_lt h
      · exact le_refl v
    have hlea : (if a < v then a else v) ≤ a := by
      split_ifs with h
      · exact le_refl a
      · exact not_lt.mp h
    have hminhead : ¬ (if a < v then a else v) <
        t.foldl (fun cur x => if x < cur then x else cur) (if a < v then a else v) :=
      hmin _ (List.mem_cons_self _ _)
    constructor
    · rw [step]
      simp only [List.mem_cons]
      rcases List.mem_cons.mp hmem with h | h
      · rcases hcase with hc | hc
        · exact Or.inr (Or.inl (h.trans hc))
        · exact Or.inl (h.trans hc)
      · exact Or.inr (Or.inr h)
    · intro x hx
      rw [step]
      rcases List.mem_cons.mp hx with rfl | hx'
      · intro hlt
        exact hminhead (lt_of_le_of_lt hlev hlt)
      · rcases List.mem_cons.mp hx' with rfl | hx''
        · intro hlt
          exact hminhead (lt_of_le_of_lt hlea hlt)
        · exact hmin x (List.mem_cons_of_mem _ hx'')

/-- The section sizes of `np.array_split` sum to the row count. -/
theorem splitSizes_sum (total parts : Nat) (h : 0 < parts) :
    (splitSizes total parts).sum = total := by
  unfold splitSizes
  have hr : total % parts < parts := Nat.mod_lt _ h
  have hd : parts * (total / parts) + total % parts = total := Nat.div_add_mod total parts
  have hsub : (parts - total % parts) * (total / parts)
      = parts * (total / parts) - total % parts * (total / parts) := Nat.sub_mul _ _ _
  have hle : total % parts * (total / parts) ≤ parts * (total / parts) :=
    Nat.mul_le_mul_right _ (le_of_lt hr)
  have hmul : total % parts * (total / parts + 1)
      = total % parts * (total / parts) + total % parts := by ring
  simp only [List.sum_append, List.sum_replicate, smul_eq_mul]
  omega

/-- There are exactly `parts` sections. -/
theorem splitSizes_length (total parts : Nat) (h : 0 < parts) :
    (splitSizes total parts).length = parts := by
  unfold splitSizes
  have hr : total % parts < parts := Nat.mod_lt _ h
  simp only [List.length_append, List.length_replicate]
  omega

/-- Every section size is the floor quotient or one more. -/
theorem splitSizes_mem (total parts x : Nat) (hx : x ∈ splitSizes total parts) :
    x = total / parts ∨ x = total / parts + 1 := by
  unfold splitSizes at hx
  rcases List.mem_append.mp hx with h | h <;>
    rcases List.eq_of_mem_replicate h with rfl <;> simp

theorem takeChunks_length (sizes : List Nat) (l : List α) :
    (takeChunks sizes l).length = sizes.length := by
  induction sizes generalizing l with
  | nil => simp [takeChunks]
  | cons s rest ih => simp [takeChunks, ih]

theorem takeChunks_flatten (sizes : List Nat) (l : List α) :
    (takeChunks sizes l).flatten = l.take sizes.sum := by
  induction sizes generalizing l with
  | nil => simp [takeChunks]
  | cons s rest ih =>
    simp only [takeChunks, List.flatten_cons, ih, List.sum_cons]
    rw [List.take_add]

theorem takeChunks_map_length (sizes : List Nat) (l : List α)
    (h : sizes.sum ≤ l.length) : (takeChunks sizes l).map List.length = sizes := by
  induction sizes generalizing l with
  | nil => simp [takeChunks]
  | cons s rest ih =>
    simp only [takeChunks, List.map_cons, List.length_take]
    have hsum : s + rest.sum ≤ l.length := by
      have := List.sum_cons (a := s) (l := rest) ▸ h
      omega
    have hs : s ≤ l.length := by omega
    have hrest : rest.sum ≤ (l.drop s).length := by
      simp only [List.length_drop]
      omega
    rw [min_eq_left hs, ih _ hrest]

/-! ## Claim theorems -/

/-- Claim C9: `split_mismatch_file.py` floors the byte size to whole
mebibytes (`size >> 20`) and asserts the floored value is strictly greater
than `10`, so any file with `10 * 2^20 < size < 11 * 2^20` bytes — already
over the 10 MB upload limit — fails the assertion and is refused. -/
theorem size_gate_refuses_oversized (s : Nat)
    (h1 : 10 * 2 ^ 20 < s) (h2 : s < 11 * 2 ^ 20) :
    size_assert_passes s = false := by
  unfold size_assert_passes mf_size
  have hpow : (2 : Nat) ^ 20 = 1048576 := by norm_num
  rw [Nat.shiftRight_eq_div_pow]
  simp only [decide_eq_false_iff_not, not_lt]
  omega

theorem size_gate_refuses_oversized_witness :
    10 * 2 ^ 20 < 11000000 ∧ 11000000 < 11 * 2 ^ 20 ∧
      size_assert_passes 11000000 = false :=
  ⟨by norm_num, by norm_num,
    size_gate_refuses_oversized 11000000 (by norm_num) (by norm_num)⟩

/-- Claim C10: on an accepted file of floored-mebibyte size `s`, the script
makes `ceil(s / 10)` output CSVs via `np.array_split`; concatenating the
chunks in order reproduces the original row sequence exactly, and any two
chunk row-counts differ by at most one. -/
theorem array_split_partition (s : Nat) (rows : List α) (h : 10 < s) :
    number_of_split_mismatch_files s = (s + 9) / 10 ∧
      (array_split rows (number_of_split_mismatch_files s)).length
        = number_of_split_mismatch_files s ∧
      (array_split rows (number_of_split_mismatch_files s)).flatten = rows ∧
      ∀ c1 ∈ array_split rows (number_of_split_mismatch_files s),
        ∀ c2 ∈ array_split rows (number_of_split_mismatch_files s),
          c1.length ≤ c2.length + 1 := by
  have hn : 0 < number_of_split_mismatch_files s := by
    unfold number_of_split_mismatch_files
    split <;> omega
  have hceil : number_of_split_mismatch_files s = (s + 9) / 10 := by
    unfold number_of_split_mismatch_files
    split <;> omega
  have hsum : (splitSizes rows.length (number_of_split_mismatch_files s)).sum
      = rows.length := splitSizes_sum _ _ hn
  have hlens : (array_split rows (number_of_split_mismatch_files s)).map List.length
      = splitSizes rows.length (number_of_split_mismatch_files s) := by
    unfold array_split
    exact takeChunks_map_length _ _ (le_of_eq hsum)
  refine ⟨hceil, ?_, ?_, ?_⟩
  · unfold array_split
    rw [takeChunks_length, splitSizes_length _ _ hn]
  · unfold array_split
    rw [takeChunks_flatten, hsum, List.take_length]
  · intro c1 hc1 c2 hc2
    have h1 : c1.length ∈ splitSizes rows.length (number_of_split_mismatch_files s) := by
      rw [← hlens]; exact List.mem_map_of_mem _ hc1
    have h2 : c2.length ∈ splitSizes rows.length (number_of_split_mismatch_files s) := by
      rw [← hlens]; exact List.mem_map_of_mem _ hc2
    rcases splitSizes_mem _ _ _ h1 with e1 | e1 <;>
      rcases splitSizes_mem _ _ _ h2 with e2 | e2 <;> omega

theorem array_split_partition_witness :
    10 < 25 ∧
      ((array_split ([0, 1, 2, 3] : List Nat) (number_of_split_mismatch_files 25)).flatten
        = [0, 1, 2, 3]) :=
  ⟨by norm_num, (array_split_partition 25 [0, 1, 2, 3] (by norm_num)).2.2.1⟩

/-- Claim C4: the comparator returns Match exactly when the two datetimes are
equal, or they share a year, the Open Library value is the synthetic
January 1 (`month = 1` and `day = 1`), and the Wikidata value is not itself
exactly January 1; every other pair is a Mismatch. -/
theorem compare_values_policy (wd ol : PyDateTime) :
    compare_values wd ol = true ↔
      (wd = ol ∨
        (wd.year = ol.year ∧ ol.month = 1 ∧ ol.day = 1 ∧
          ¬(wd.month = 1 ∧ wd.day = 1))) := by
  unfold compare_values
  split_ifs with h1 h2 h3 <;> (simp_all; try tauto)

theorem compare_values_policy_witness :
    compare_values ⟨2022, 4, 15, 0, 0, 0⟩ ⟨2022, 1, 1, 0, 0, 0⟩ = true :=
  (compare_values_policy ⟨2022, 4, 15, 0, 0, 0⟩ ⟨2022, 1, 1, 0, 0, 0⟩).mpr
    (by decide)

/-- Claim C8: the validator is a pure function of the batch, so running it
twice on the same frame yields the same outcome and the same ordered list of
violation messages. -/
theorem validator_idempotent (df : MFDataFrame) :
    check_mf_formatting df = check_mf_formatting df ∧
      correction_instruction df = correction_instruction df :=
  ⟨rfl, rfl⟩

theorem validator_idempotent_witness :
    check_mf_formatting ⟨required_columns, []⟩ = check_mf_formatting ⟨required_columns, []⟩ :=
  (validator_idempotent ⟨required_columns, []⟩).1

/-- Claim C1 (code-bug evidence): on the batch with invalid `item_id = "X1"`
and `external_url = "not-a-url"`, the validator accumulates exactly ONE
violation — the invalid id — not the two the specification expects,
because `validate_url` tests `pd.isnull(url) is None` (always false) and
therefore returns `True` on every input, including `"not-a-url"`, which has
neither scheme nor host. -/
theorem c1_validator_reports_one_violation :
    (correction_instruction c1Frame).length = 1 ∧
      validate_url (some "not-a-url") = true ∧
      urlHasSchemeAndNetloc "not-a-url" = false := by
  refine ⟨by decide, rfl, by decide⟩

/-- Claim C2 (code-bug evidence): a row whose non-null `external_url` does
not parse as an absolute URL is NOT flagged — the validator passes the whole
batch — because the dead `pd.isnull(url) is None` test makes `validate_url`
return `True` unconditionally. -/
theorem c2_validator_misses_bad_url :
    check_mf_formatting c2Frame = Except.ok () ∧
      urlHasSchemeAndNetloc "not-a-url" = false ∧
      (url_validation_checks c2Frame).contains false = false := by
  refine ⟨rfl, by decide, by decide⟩

/-- Claim C5 (counterexample): the fetcher does not contribute one element
per edition record — a record with no date field is skipped entirely
(`continue`), and a present date is ISO-converted rather than kept raw: on
the two-record response `[some "1996", none]` the returned sequence has one
element, not two. -/
theorem get_editions_skips_missing_dates :
    get_editions_publication_dates [some "1996", none]
        = some [some "1996-01-01T00:00:00Z"] ∧
      (get_editions_publication_dates [some "1996", none]).map List.length ≠ some 2 := by
  refine ⟨by decide, by decide⟩

/-- Claim C5 (amended): per edition record whose date field is present the
fetcher contributes exactly one element — the ISO-8601 conversion of that
date (null when unparseable) — records without a date field contribute
nothing, and when every record lacks a date the function returns `None`
instead of an empty sequence. -/
theorem get_editions_contributes_per_present_date (entries : List (Option String)) :
    (get_editions_publication_dates entries = none ↔ ∀ e ∈ entries, e = none) ∧
      (∀ l, get_editions_publication_dates entries = some l →
        l = (entries.filterMap id).map convert_to_iso_8601) := by
  have hfold : pub_dates_of entries = (entries.filterMap id).map convert_to_iso_8601 := by
    unfold pub_dates_of
    simpa using foldl_pubStep entries []
  unfold get_editions_publication_dates
  rw [hfold]
  constructor
  · by_cases h : ((entries.filterMap id).map convert_to_iso_8601).isEmpty
    · rw [if_pos h]
      simp only [List.isEmpty_iff, List.map_eq_nil_iff, List.filterMap_eq_nil_iff] at h
      simpa using fun e he => h e he
    · rw [if_neg h]
      simp only [List.isEmpty_iff, List.map_eq_nil_iff, List.filterMap_eq_nil_iff] at h
      constructor
      · intro hc
        exact absurd hc (by simp)
      · intro hall
        exact absurd (fun e he => by simpa using hall e he) h
  · intro l hl
    by_cases h : ((entries.filterMap id).map convert_to_iso_8601).isEmpty
    · rw [if_pos h] at hl
      exact absurd hl (by simp)
    · rw [if_neg h] at hl
      exact (Option.some.inj hl).symm

theorem get_editions_contributes_per_present_date_witness :
    get_editions_publication_dates [some "1996", none]
      = some (([some "1996", none].filterMap id).map convert_to_iso_8601) := by
  have h : get_editions_publication_dates [some "1996", none]
      = some [some "1996-01-01T00:00:00Z"] := by decide
  rw [h]
  exact congrArg some
    ((get_editions_contributes_per_present_date [some "1996", none]).2 _ h)

/-! ## Lexicographic order of ISO date strings -/

theorem digitChar_lt_iff (a b : Nat) (ha : a ≤ 9) (hb : b ≤ 9) :
    (digitChar a < digitChar b) ↔ a < b := by
  interval_cases a <;> interval_cases b <;> decide

theorem digitChar_eq_iff (a b : Nat) (ha : a ≤ 9) (hb : b ≤ 9) :
    (digitChar a = digitChar b) ↔ a = b := by
  interval_cases a <;> interval_cases b <;> decide

theorem lex_cons_iff (a b : Char) (l1 l2 : List Char) :
    List.Lex (· < ·) (a :: l1) (b :: l2) ↔ a < b ∨ (a = b ∧ List.Lex (· < ·) l1 l2) := by
  constructor
  · intro h
    cases h with
    | rel h => exact Or.inl h
    | cons h => exact Or.inr ⟨rfl, h⟩
  · rintro (h | ⟨rfl, h⟩)
    · exact List.Lex.rel h
    · exact List.Lex.cons h

theorem lex_irrefl (l : List Char) : ¬ List.Lex (· < ·) l l := by
  induction l with
  | nil => intro h; cases h
  | cons a t ih =>
    intro h
    cases h with
    | rel h => exact lt_irrefl _ h
    | cons h => exact ih h

theorem lex_append_iff (xs ys as bs : List Char)
    (h : xs.length = ys.length) :
    List.Lex (· < ·) (xs ++ as) (ys ++ bs) ↔
      List.Lex (· < ·) xs ys ∨ (xs = ys ∧ List.Lex (· < ·) as bs) := by
  induction xs generalizing ys with
  | nil =>
    cases ys with
    | nil =>
      refine ⟨fun hl => Or.inr ⟨rfl, hl⟩, ?_⟩
      rintro (hl | ⟨-, hl⟩)
      · cases hl
      · exact hl
    | cons y ys' => simp at h
  | cons x xs' ih =>
    cases ys with
    | nil => simp at h
    | cons y ys' =>
      have h' : xs'.length = ys'.length := by simpa using h
      simp only [List.cons_append]
      rw [lex_cons_iff, ih ys' h', lex_cons_iff]
      simp only [List.cons.injEq]
      tauto

/-- String order is lexicographic on the character lists. -/
theorem string_lt_iff (s t : String) :
    s < t ↔ List.Lex (· < ·) s.data t.data :=
  String.lt_iff_toList_lt

theorem string_mk_lt_iff (l1 l2 : List Char) :
    (String.mk l1 < String.mk l2) ↔ List.Lex (· < ·) l1 l2 :=
  string_lt_iff ⟨l1⟩ ⟨l2⟩

theorem pad2_lt_iff (m n : Nat) (hm : m ≤ 99) (hn : n ≤ 99) :
    List.Lex (· < ·) (pad2 m) (pad2 n) ↔ m < n := by
  unfold pad2
  have h1 : m / 10 ≤ 9 := by omega
  have h2 : m % 10 ≤ 9 := by omega
  have h3 : n / 10 ≤ 9 := by omega
  have h4 : n % 10 ≤ 9 := by omega
  rw [lex_cons_iff, lex_cons_iff, digitChar_lt_iff _ _ h1 h3,
    digitChar_eq_iff _ _ h1 h3, digitChar_lt_iff _ _ h2 h4]
  constructor
  · rintro (h | ⟨he, h | ⟨-, h⟩⟩)
    · omega
    · omega
    · cases h
  · intro h
    by_cases he : m / 10 = n / 10
    · exact Or.inr ⟨he, Or.inl (by omega)⟩
    · exact Or.inl (by omega)

theorem pad2_eq_iff (m n : Nat) (hm : m ≤ 99) (hn : n ≤ 99) :
    pad2 m = pad2 n ↔ m = n := by
  unfold pad2
  have h1 : m / 10 ≤ 9 := by omega
  have h2 : m % 10 ≤ 9 := by omega
  have h3 : n / 10 ≤ 9 := by omega
  have h4 : n % 10 ≤ 9 := by omega
  simp only [List.cons.injEq, and_true, digitChar_eq_iff _ _ h1 h3,
    digitChar_eq_iff _ _ h2 h4]
  omega

theorem natDigits_four (y : Nat) (h1 : 1000 ≤ y) (h2 : y ≤ 9999) :
    natDigits y =
      [digitChar (y / 1000), digitChar (y / 100 % 10), digitChar (y / 10 % 10),
       digitChar (y % 10)] := by
  unfold natDigits
  rw [if_neg (by omega), if_neg (by omega), if_neg (by omega)]

theorem year4_lt_iff (y1 y2 : Nat) (ha1 : 1000 ≤ y1) (ha2 : y1 ≤ 9999)
    (hb1 : 1000 ≤ y2) (hb2 : y2 ≤ 9999) :
    List.Lex (· < ·) (natDigits y1) (natDigits y2) ↔ y1 < y2 := by
  rw [natDigits_four y1 ha1 ha2, natDigits_four y2 hb1 hb2]
  have q1 : y1 / 1000 ≤ 9 := by omega
  have q2 : y2 / 1000 ≤ 9 := by omega
  have r1 : y1 / 100 % 10 ≤ 9 := by omega
  have r2 : y2 / 100 % 10 ≤ 9 := by omega
  have s1 : y1 / 10 % 10 ≤ 9 := by omega
  have s2 : y2 / 10 % 10 ≤ 9 := by omega
  have t1 : y1 % 10 ≤ 9 := by omega
  have t2 : y2 % 10 ≤ 9 := by omega
  rw [lex_cons_iff, lex_cons_iff, lex_cons_iff, lex_cons_iff,
    digitChar_lt_iff _ _ q1 q2, digitChar_eq_iff _ _ q1 q2,
    digitChar_lt_iff _ _ r1 r2, digitChar_eq_iff _ _ r1 r2,
    digitChar_lt_iff _ _ s1 s2, digitChar_eq_iff _ _ s1 s2,
    digitChar_lt_iff _ _ t1 t2]
  constructor
  · rintro (h | ⟨e1, h | ⟨e2, h | ⟨e3, h | ⟨-, h⟩⟩⟩⟩)
    · omega
    · omega
    · omega
    · omega
    · cases h
  · intro h
    by_cases e1 : y1 / 1000 = y2 / 1000
    · by_cases e2 : y1 / 100 % 10 = y2 / 100 % 10
      · by_cases e3 : y1 / 10 % 10 = y2 / 10 % 10
        · exact Or.inr ⟨e1, Or.inr ⟨e2, Or.inr ⟨e3, Or.inl (by omega)⟩⟩⟩
        · exact Or.inr ⟨e1, Or.inr ⟨e2, Or.inl (by omega)⟩⟩
      · exact Or.inr ⟨e1, Or.inl (by omega)⟩
    · exact Or.inl (by omega)

theorem year4_eq_iff (y1 y2 : Nat) (ha1 : 1000 ≤ y1) (ha2 : y1 ≤ 9999)
    (hb1 : 1000 ≤ y2) (hb2 : y2 ≤ 9999) :
    natDigits y1 = natDigits y2 ↔ y1 = y2 := by
  rw [natDigits_four y1 ha1 ha2, natDigits_four y2 hb1 hb2]
  have q1 : y1 / 1000 ≤ 9 := by omega
  have q2 : y2 / 1000 ≤ 9 := by omega
  have r1 : y1 / 100 % 10 ≤ 9 := by omega
  have r2 : y2 / 100 % 10 ≤ 9 := by omega
  have s1 : y1 / 10 % 10 ≤ 9 := by omega
  have s2 : y2 / 10 % 10 ≤ 9 := by omega
  have t1 : y1 % 10 ≤ 9 := by omega
  have t2 : y2 % 10 ≤ 9 := by omega
  simp only [List.cons.injEq, and_true, digitChar_eq_iff _ _ q1 q2,
    digitChar_eq_iff _ _ r1 r2, digitChar_eq_iff _ _ s1 s2,
    digitChar_eq_iff _ _ t1 t2]
  omega

/-- On four-digit-year dates, the string order of the ISO renderings is the
instant order. -/
theorem isoStr_lt_iff (d1 d2 : DT) (h1 : isoInRange d1) (h2 : isoInRange d2) :
    (isoStr d1 < isoStr d2) ↔ dtKey d1 < dtKey d2 := by
  obtain ⟨hy1, hy2, hm1, hm2, hd1, hd2⟩ := h1
  obtain ⟨hy3, hy4, hm3, hm4, hd3, hd4⟩ := h2
  have hylen : (natDigits d1.y).length = (natDigits d2.y).length := by
    rw [natDigits_four _ hy1 hy2, natDigits_four _ hy3 hy4]
    rfl
  unfold isoStr
  rw [string_mk_lt_iff]
  simp only [List.append_assoc, List.cons_append]
  rw [lex_append_iff (natDigits d1.y) (natDigits d2.y) _ _ hylen, lex_cons_iff,
    lex_append_iff (pad2 d1.m) (pad2 d2.m) _ _ (by simp [pad2]), lex_cons_iff,
    lex_append_iff (pad2 d1.d) (pad2 d2.d) _ _ (by simp [pad2])]
  rw [year4_lt_iff _ _ hy1 hy2 hy3 hy4, year4_eq_iff _ _ hy1 hy2 hy3 hy4,
    pad2_lt_iff _ _ (by omega) (by omega), pad2_eq_iff _ _ (by omega) (by omega),
    pad2_lt_iff _ _ (by omega) (by omega), pad2_eq_iff _ _ (by omega) (by omega)]
  have hTT : ¬ List.Lex (· < ·) "T00:00:00Z".data "T00:00:00Z".data :=
    lex_irrefl _
  have hdash : ¬ ('-' : Char) < '-' := by decide
  unfold dtKey
  constructor
  · rintro (h | ⟨e1, h | ⟨-, h | ⟨e2, h | ⟨-, h | ⟨e3, h⟩⟩⟩⟩⟩)
    · omega
    · exact absurd h hdash
    · omega
    · exact absurd h hdash
    · omega
    · exact absurd h hTT
  · intro h
    by_cases e1 : d1.y = d2.y
    · by_cases e2 : d1.m = d2.m
      · exact Or.inr ⟨e1, Or.inr ⟨rfl, Or.inr ⟨e2, Or.inr ⟨rfl, Or.inl (by omega)⟩⟩⟩⟩
      · exact Or.inr ⟨e1, Or.inr ⟨rfl, Or.inl (by omega)⟩⟩
    · exact Or.inl (by omega)

/-- Claim C6: the Earliest-Date Reducer filters out null entries; when
nothing remains — in particular on the all-null input `[null, null]` or a
`None` input — it returns `None` without error, and otherwise it returns
the minimum remaining candidate (first minimal element of Python's `min`),
which for the pipeline's four-digit-year ISO strings is the minimum by
instant, since the string order coincides with the instant order. -/
theorem find_earliest_date_some_eq (l : List (Option String)) :
    find_earliest_date (some l) =
      match valid_dates_of l with
      | [] => none
      | v :: rest => some (rest.foldl (fun cur x => if x < cur then x else cur) v) :=
  rfl

theorem find_earliest_date_spec (l : List (Option String)) :
    find_earliest_date none = none ∧
      (l.filterMap id = [] → find_earliest_date (some l) = none) ∧
      (l.filterMap id ≠ [] →
        ∃ m, find_earliest_date (some l) = some m ∧ m ∈ l.filterMap id ∧
          ∀ x ∈ l.filterMap id, ¬ x < m) ∧
      (∀ d1 d2 : DT, isoInRange d1 → isoInRange d2 →
        ((isoStr d1 < isoStr d2) ↔ dtKey d1 < dtKey d2)) := by
  have hvalid : valid_dates_of l = l.filterMap id := by
    unfold valid_dates_of
    simpa using foldl_validStep l []
  refine ⟨rfl, ?_, ?_, isoStr_lt_iff⟩
  · intro h
    rw [find_earliest_date_some_eq, hvalid, h]
  · intro h
    rcases hv : l.filterMap id with _ | ⟨v, rest⟩
    · exact absurd hv h
    · refine ⟨rest.foldl (fun cur x => if x < cur then x else cur) v, ?_, ?_⟩
      · rw [find_earliest_date_some_eq, hvalid, hv]
      · exact foldl_min_spec v rest

theorem find_earliest_date_spec_witness :
    find_earliest_date (some [none, none]) = none :=
  (find_earliest_date_spec [none, none]).2.1 rfl

/-! ## The statement_guid / wikidata_value check -/

theorem appendItems_prefix (items : List String) (base : String) :
    ∃ t : String, appendItems base items = base ++ t := by
  induction items generalizing base with
  | nil => exact ⟨"", by simp [appendItems]⟩
  | cons c rest ih =>
    obtain ⟨t, ht⟩ := ih (base ++ "\n    - " ++ c)
    exact ⟨"\n    - " ++ c ++ t, by
      unfold appendItems at ht ⊢
      rw [List.foldl_cons, ht]
      simp [String.append_assoc]⟩

theorem append_ne_of_take_ne (base other : String)
    (h : other.data.take base.data.length ≠ base.data) (t : String) :
    base ++ t ≠ other := by
  intro he
  apply h
  have hd := congrArg String.data he
  rw [String.data_append] at hd
  rw [← hd, List.take_left]

theorem mem_if_singleton (c : Prop) [Decidable c] (m x : String) :
    (x ∈ if c then [m] else []) ↔ c ∧ x = m := by
  split <;> simp_all

theorem bool_contains_true_iff (l : List Bool) :
    l.contains true = true ↔ true ∈ l := by
  simp [List.contains]

/-- Claim C7: with both columns present, the validator's aggregated report
contains the statement-guid message exactly when some row has a non-null
`wikidata_value` together with a null `statement_guid`; a null
`wikidata_value` with a non-null `statement_guid` is allowed and produces no
violation, and whenever the message is present the validator raises. -/
theorem guid_check_flags_rows (df : MFDataFrame)
    (h : df.columns.contains "statement_guid" = true ∧
      df.columns.contains "wikidata_value" = true) :
    (msg_guid ∈ correction_instruction df ↔
      ∃ r ∈ df.rows, r.wikidata_value ≠ none ∧ r.statement_guid = none) ∧
      (msg_guid ∈ correction_instruction df →
        ∃ e, check_mf_formatting df = Except.error e) := by
  have hn1 : msg_guid ≠ msg_columns := by decide
  have hn6 : msg_guid ≠ msg_types := by decide
  have hn2 : msg_guid ≠ msg_invalid_ids df := by
    obtain ⟨t, ht⟩ := appendItems_prefix (columns_with_invalid_ids df)
      "Please assure that the following columns have valid ids:"
    unfold msg_invalid_ids
    rw [ht]
    exact fun he => append_ne_of_take_ne _ _ (by decide) t he.symm
  have hn3 : msg_guid ≠ msg_nulls df := by
    obtain ⟨t, ht⟩ := appendItems_prefix (columns_with_nulls df)
      "Please assure that the following columns do not have null values:"
    unfold msg_nulls
    rw [ht]
    exact fun he => append_ne_of_take_ne _ _ (by decide) t he.symm
  have hn5 : msg_guid ≠ msg_urls df := by
    obtain ⟨t, ht⟩ := appendItems_prefix (invalid_urls df)
      "Please check the following URLs in `external_url` to make sure that they're valid:"
    unfold msg_urls
    rw [ht]
    exact fun he => append_ne_of_take_ne _ _ (by decide) t he.symm
  have hn7 : msg_guid ≠ msg_too_long df := by
    obtain ⟨t, ht⟩ := appendItems_prefix (columns_with_too_long_values df)
      "Please assure that the following columns do not have values over 1,500 characters:"
    unfold msg_too_long
    rw [ht]
    exact fun he => append_ne_of_take_ne _ _ (by decide) t he.symm
  have hmem : msg_guid ∈ correction_instruction df ↔ cond_guid df = true := by
    unfold correction_instruction
    simp only [List.mem_append, mem_if_singleton]
    constructor
    · rintro ((((((⟨-, he⟩ | ⟨-, he⟩) | ⟨-, he⟩) | ⟨hc, -⟩) | ⟨-, he⟩) | ⟨-, he⟩) | ⟨-, he⟩)
      · exact absurd he hn1
      · exact absurd he hn2
      · exact absurd he hn3
      · exact hc
      · exact absurd he hn5
      · exact absurd he hn6
      · exact absurd he hn7
    · intro hc
      exact Or.inl (Or.inl (Or.inl (Or.inr ⟨hc, by trivial⟩)))
  have hcond : cond_guid df = true ↔
      ∃ r ∈ df.rows, r.wikidata_value ≠ none ∧ r.statement_guid = none := by
    simp only [cond_guid, decide_eq_true_eq, h.1, h.2, true_and]
    rw [bool_contains_true_iff]
    unfold check_empty_value_list
    simp only [List.mem_map, pdIsnull]
    constructor
    · rintro ⟨r, hr, he⟩
      refine ⟨r, hr, ?_⟩
      simp only [decide_eq_true_eq, Bool.not_eq_true', Option.isNone_eq_false_iff,
        Option.isNone_iff_eq_none, Option.isSome_iff_ne_none] at he
      exact he
    · rintro ⟨r, hr, hw, hg⟩
      refine ⟨r, hr, ?_⟩
      simp [hw, hg, Option.isSome_iff_ne_none]
  refine ⟨hmem.trans hcond, fun hin => ?_⟩
  have hne : correction_instruction df ≠ [] := List.ne_nil_of_mem hin
  refine ⟨mf_file_creation_directions ++ numberInstructions 1 (correction_instruction df), ?_⟩
  unfold check_mf_formatting df_formatted_correctly
  rw [if_neg (by simpa [List.isEmpty_iff] using hne)]

theorem guid_check_flags_rows_witness :
    msg_guid ∈ correction_instruction c7Frame :=
  (guid_check_flags_rows c7Frame ⟨by decide, by decide⟩).1.mpr
    ⟨⟨some "Q1", none, some "P577", some "2020", none, some "x", none, none⟩,
      by decide, by decide, rfl⟩

/-! ## Character class facts used by the format-disjointness proofs -/

theorem ws_cases (c : Char) (h : c.isWhitespace = true) :
    c = ' ' ∨ c = '\t' ∨ c = '\r' ∨ c = '\n' := by
  simp only [Char.isWhitespace, Bool.or_eq_true, decide_eq_true_eq] at h
  tauto

theorem ws_not_digit (c : Char) (h : c.isWhitespace = true) : c.isDigit = false := by
  rcases ws_cases c h with rfl | rfl | rfl | rfl <;> decide

theorem ws_toLower (c : Char) (h : c.isWhitespace = true) : c.toLower = c := by
  rcases ws_cases c h with rfl | rfl | rfl | rfl <;> decide

theorem uint32_le_iff_toNat_le (a b : UInt32) : a ≤ b ↔ a.toNat ≤ b.toNat := by
  rw [UInt32.le_def, BitVec.le_def]
  exact Iff.rfl

theorem digit_toNat_le (c : Char) (h : c.isDigit = true) : c.toNat ≤ 57 := by
  simp only [Char.isDigit, Bool.and_eq_true, decide_eq_true_eq] at h
  have h2 := (uint32_le_iff_toNat_le c.val 57).mp h.2
  simpa using h2

theorem digit_toLower (c : Char) (h : c.isDigit = true) : c.toLower = c := by
  unfold Char.toLower
  rw [if_neg]
  intro hc
  have := digit_toNat_le c h
  omega

/-! ## Inversion lemmas for `parseToks` -/

theorem orElse_eq_some {a b : Option DT} {x : DT} (h : (a <|> b) = some x) :
    a = some x ∨ (a = none ∧ b = some x) := by
  cases a <;> simp_all

theorem inv_nil {st : DT} {s : List Char} {dt : DT}
    (h : parseToks [] st s = some dt) : s = [] ∧ dt = st := by
  simp only [parseToks, List.isEmpty_iff] at h
  split at h
  · exact ⟨by assumption, (Option.some.inj h).symm⟩
  · exact absurd h (by simp)

theorem inv_Y {r : List Tok} {st : DT} {s : List Char} {dt : DT}
    (h : parseToks (Tok.Y :: r) st s = some dt) :
    ∃ a b c e s', s = a :: b :: c :: e :: s' ∧ a.isDigit = true ∧ b.isDigit = true ∧
      c.isDigit = true ∧ e.isDigit = true ∧
      parseToks r { st with y := 1000 * dval a + 100 * dval b + 10 * dval c + dval e } s'
        = some dt := by
  rcases s with _ | ⟨a, s⟩
  · simp [parseToks] at h
  rcases s with _ | ⟨b, s⟩
  · simp [parseToks] at h
  rcases s with _ | ⟨c, s⟩
  · simp [parseToks] at h
  rcases s with _ | ⟨e, s'⟩
  · simp [parseToks] at h
  simp only [parseToks] at h
  split at h
  · rename_i hc
    exact ⟨a, b, c, e, s', rfl, hc.1, hc.2.1, hc.2.2.1, hc.2.2.2, h⟩
  · exact absurd h (by simp)

theorem inv_lit {c : Char} {r : List Tok} {st : DT} {s : List Char} {dt : DT}
    (h : parseToks (Tok.lit c :: r) st s = some dt) :
    ∃ s', s = c :: s' ∧ parseToks r st s' = some dt := by
  rcases s with _ | ⟨x, s'⟩
  · simp [parseToks] at h
  simp only [parseToks] at h
  split at h
  · rename_i hx
    exact ⟨s', by rw [hx], h⟩
  · exact absurd h (by simp)

theorem inv_ws {r : List Tok} {st : DT} {s : List Char} {dt : DT}
    (h : parseToks (Tok.ws :: r) st s = some dt) :
    ∃ x s', s = x :: s' ∧ x.isWhitespace = true ∧
      parseToks r st ((x :: s').dropWhile Char.isWhitespace) = some dt := by
  rcases s with _ | ⟨x, s'⟩
  · simp [parseToks] at h
  simp only [parseToks] at h
  split at h
  · rename_i hx
    exact ⟨x, s', rfl, hx, h⟩
  · exact absurd h (by simp)

theorem inv_M {r : List Tok} {st : DT} {s : List Char} {dt : DT}
    (h : parseToks (Tok.M :: r) st s = some dt) :
    (∃ d1 d2 s', s = d1 :: d2 :: s' ∧ d1.isDigit = true ∧ d2.isDigit = true ∧
      1 ≤ 10 * dval d1 + dval d2 ∧ 10 * dval d1 + dval d2 ≤ 12 ∧
      parseToks r { st with m := 10 * dval d1 + dval d2 } s' = some dt) ∨
    (∃ d1 s', s = d1 :: s' ∧ d1.isDigit = true ∧ 1 ≤ dval d1 ∧
      parseToks r { st with m := dval d1 } s' = some dt) := by
  rcases s with _ | ⟨d1, _ | ⟨d2, s'⟩⟩
  · simp [parseToks] at h
  · simp only [parseToks, Option.none_orElse] at h
    split at h
    · rename_i hc
      exact Or.inr ⟨d1, [], rfl, hc.1, hc.2, h⟩
    · exact absurd h (by simp)
  · simp only [parseToks] at h
    rcases orElse_eq_some h with h1 | ⟨-, h1⟩
    · left
      split at h1
      · rename_i hc
        exact ⟨d1, d2, s', rfl, hc.1, hc.2.1, hc.2.2.1, hc.2.2.2, h1⟩
      · exact absurd h1 (by simp)
    · right
      split at h1
      · rename_i hc
        exact ⟨d1, d2 :: s', rfl, hc.1, hc.2, h1⟩
      · exact absurd h1 (by simp)

theorem inv_D {r : List Tok} {st : DT} {s : List Char} {dt : DT}
    (h : parseToks (Tok.D :: r) st s = some dt) :
    (∃ d1 d2 s', s = d1 :: d2 :: s' ∧ d1.isDigit = true ∧ d2.isDigit = true ∧
      1 ≤ 10 * dval d1 + dval d2 ∧ 10 * dval d1 + dval d2 ≤ 31 ∧
      parseToks r { st with d := 10 * dval d1 + dval d2 } s' = some dt) ∨
    (∃ d1 s', s = d1 :: s' ∧ d1.isDigit = true ∧ 1 ≤ dval d1 ∧
      parseToks r { st with d := dval d1 } s' = some dt) := by
  rcases s with _ | ⟨d1, _ | ⟨d2, s'⟩⟩
  · simp [parseToks] at h
  · simp only [parseToks, Option.none_orElse] at h
    split at h
    · rename_i hc
      exact Or.inr ⟨d1, [], rfl, hc.1, hc.2, h⟩
    · exact absurd h (by simp)
  · simp only [parseToks] at h
    rcases orElse_eq_some h with h1 | ⟨-, h1⟩
    · left
      split at h1
      · rename_i hc
        exact ⟨d1, d2, s', rfl, hc.1, hc.2.1, hc.2.2.1, hc.2.2.2, h1⟩
      · exact absurd h1 (by simp)
    · right
      split at h1
      · rename_i hc
        exact ⟨d1, d2 :: s', rfl, hc.1, hc.2, h1⟩
      · exact absurd h1 (by simp)

theorem matchName_some {l : List (List Char × Nat)} {s s' : List Char} {mo : Nat}
    (h : matchName l s = some (mo, s')) :
    ∃ nm, (nm, mo) ∈ l ∧ stripName nm s = some s' := by
  induction l with
  | nil => simp [matchName] at h
  | cons p rest ih =>
    obtain ⟨nm0, mo0⟩ := p
    simp only [matchName] at h
    split at h
    · rename_i s1 hs
      simp only [Option.some.injEq, Prod.mk.injEq] at h
      obtain ⟨rfl, rfl⟩ := h
      exact ⟨nm0, List.mem_cons_self _ _, hs⟩
    · obtain ⟨nm, hmem, hstrip⟩ := ih h
      exact ⟨nm, List.mem_cons_of_mem _ hmem, hstrip⟩

theorem inv_B {r : List Tok} {st : DT} {s : List Char} {dt : DT}
    (h : parseToks (Tok.B :: r) st s = some dt) :
    ∃ nm mo s', (nm, mo) ∈ monthsFull ∧ stripName nm s = some s' ∧
      parseToks r { st with m := mo } s' = some dt := by
  simp only [parseToks] at h
  split at h
  · rename_i mo s' hm
    obtain ⟨nm, hmem, hstrip⟩ := matchName_some hm
    exact ⟨nm, mo, s', hmem, hstrip, h⟩
  · exact absurd h (by simp)

theorem inv_Bab {r : List Tok} {st : DT} {s : List Char} {dt : DT}
    (h : parseToks (Tok.Bab :: r) st s = some dt) :
    ∃ nm mo s', (nm, mo) ∈ monthsAbbr ∧ stripName nm s = some s' ∧
      parseToks r { st with m := mo } s' = some dt := by
  simp only [parseToks] at h
  split at h
  · rename_i mo s' hm
    obtain ⟨nm, hmem, hstrip⟩ := matchName_some hm
    exact ⟨nm, mo, s', hmem, hstrip, h⟩
  · exact absurd h (by simp)

theorem stripName_some {nm s s' : List Char} (h : stripName nm s = some s') :
    ∃ pre, s = pre ++ s' ∧ pre.map Char.toLower = nm := by
  induction nm generalizing s with
  | nil =>
    simp only [stripName] at h
    exact ⟨[], by simpa using Option.some.inj h, rfl⟩
  | cons n nm' ih =>
    rcases s with _ | ⟨c, t⟩
    · simp [stripName] at h
    · simp only [stripName] at h
      split at h
      · rename_i hc
        obtain ⟨pre, rfl, hmap⟩ := ih h
        exact ⟨c :: pre, rfl, by simp [hmap, hc]⟩
      · exact absurd h (by simp)

/-! ## Facts about the month-name alternations -/

theorem monthsFull_ne_nil : ∀ p ∈ monthsFull, p.1 ≠ [] := by decide

theorem monthsAbbr_ne_nil : ∀ p ∈ monthsAbbr, p.1 ≠ [] := by decide

theorem monthsFull_chars : ∀ p ∈ monthsFull, ∀ c ∈ p.1,
    c.isDigit = false ∧ c.isWhitespace = false := by decide

theorem monthsAbbr_chars : ∀ p ∈ monthsAbbr, ∀ c ∈ p.1,
    c.isDigit = false ∧ c.isWhitespace = false := by decide

theorem monthsAbbr_length : ∀ p ∈ monthsAbbr, p.1.length = 3 := by decide

theorem monthsFull_length : ∀ p ∈ monthsFull, 3 ≤ p.1.length := by decide

/-- The only name in both alternations is `may`, with month 5 on both
sides. -/
theorem months_inter : ∀ p ∈ monthsFull, ∀ q ∈ monthsAbbr, p.1 = q.1 →
    p.2 = 5 ∧ q.2 = 5 := by decide

theorem stripName_cons {n0 : Char} {t s s' : List Char}
    (h : stripName (n0 :: t) s = some s') :
    ∃ c rest, s = c :: rest ∧ c.toLower = n0 ∧ stripName t rest = some s' := by
  rcases s with _ | ⟨c, rest⟩
  · simp [stripName] at h
  · simp only [stripName] at h
    split at h
    · rename_i hc
      exact ⟨c, rest, rfl, hc, h⟩
    · exact absurd h (by simp)

/-! ## Cross-shape disjointness of the formats -/

theorem head_digit_of_D {r : List Tok} {st : DT} {s : List Char} {a : DT}
    (h : parseToks (Tok.D :: r) st s = some a) :
    ∃ c t, s = c :: t ∧ c.isDigit = true := by
  rcases inv_D h with ⟨d1, d2, s', rfl, hd, -⟩ | ⟨d1, s', rfl, hd, -⟩
  · exact ⟨d1, d2 :: s', rfl, hd⟩
  · exact ⟨d1, s', rfl, hd⟩

theorem clash_digit_B {r2 : List Tok} {st2 : DT} {s : List Char} {b : DT}
    {c : Char} {t : List Char} (hs : s = c :: t) (hd : c.isDigit = true)
    (h2 : parseToks (Tok.B :: r2) st2 s = some b) : False := by
  obtain ⟨nm, mo, s', hmem, hstrip, -⟩ := inv_B h2
  have hne := monthsFull_ne_nil _ hmem
  rcases hnm : nm with _ | ⟨n0, t'⟩
  · exact hne hnm
  rw [hnm] at hstrip
  obtain ⟨c', rest, heq, hcl, -⟩ := stripName_cons hstrip
  rw [hs] at heq
  simp only [List.cons.injEq] at heq
  obtain ⟨rfl, -⟩ := heq
  rw [digit_toLower _ hd] at hcl
  have hn0 := (monthsFull_chars _ hmem n0 (by rw [hnm]; exact List.mem_cons_self _ _)).1
  rw [← hcl] at hn0
  simp [hn0] at hd

theorem clash_digit_Bab {r2 : List Tok} {st2 : DT} {s : List Char} {b : DT}
    {c : Char} {t : List Char} (hs : s = c :: t) (hd : c.isDigit = true)
    (h2 : parseToks (Tok.Bab :: r2) st2 s = some b) : False := by
  obtain ⟨nm, mo, s', hmem, hstrip, -⟩ := inv_Bab h2
  have hne := monthsAbbr_ne_nil _ hmem
  rcases hnm : nm with _ | ⟨n0, t'⟩
  · exact hne hnm
  rw [hnm] at hstrip
  obtain ⟨c', rest, heq, hcl, -⟩ := stripName_cons hstrip
  rw [hs] at heq
  simp only [List.cons.injEq] at heq
  obtain ⟨rfl, -⟩ := heq
  rw [digit_toLower _ hd] at hcl
  have hn0 := (monthsAbbr_chars _ hmem n0 (by rw [hnm]; exact List.mem_cons_self _ _)).1
  rw [← hcl] at hn0
  simp [hn0] at hd

theorem clash_Y_D {r1 r2 : List Tok} {st1 st2 : DT} {s : List Char} {a b : DT}
    (h1 : parseToks (Tok.Y :: r1) st1 s = some a)
    (h2 : parseToks (Tok.D :: Tok.ws :: r2) st2 s = some b) : False := by
  obtain ⟨x1, x2, x3, x4, s5, rfl, hd1, hd2, hd3, hd4, -⟩ := inv_Y h1
  rcases inv_D h2 with ⟨e1, e2, s', heq, -, -, -, -, hcont⟩ | ⟨e1, s', heq, -, -, hcont⟩
  · simp only [List.cons.injEq] at heq
    obtain ⟨-, -, rfl⟩ := heq
    obtain ⟨w, t, heq2, hws, -⟩ := inv_ws hcont
    simp only [List.cons.injEq] at heq2
    obtain ⟨rfl, -⟩ := heq2
    simp [ws_not_digit _ hws] at hd3
  · simp only [List.cons.injEq] at heq
    obtain ⟨-, rfl⟩ := heq
    obtain ⟨w, t, heq2, hws, -⟩ := inv_ws hcont
    simp only [List.cons.injEq] at heq2
    obtain ⟨rfl, -⟩ := heq2
    simp [ws_not_digit _ hws] at hd2

theorem clash_Y_B {r1 r2 : List Tok} {st1 st2 : DT} {s : List Char} {a b : DT}
    (h1 : parseToks (Tok.Y :: r1) st1 s = some a)
    (h2 : parseToks (Tok.B :: r2) st2 s = some b) : False := by
  obtain ⟨x1, x2, x3, x4, s5, rfl, hd1, -, -, -, -⟩ := inv_Y h1
  exact clash_digit_B rfl hd1 h2

theorem clash_Y_Bab {r1 r2 : List Tok} {st1 st2 : DT} {s : List Char} {a b : DT}
    (h1 : parseToks (Tok.Y :: r1) st1 s = some a)
    (h2 : parseToks (Tok.Bab :: r2) st2 s = some b) : False := by
  obtain ⟨x1, x2, x3, x4, s5, rfl, hd1, -, -, -, -⟩ := inv_Y h1
  exact clash_digit_Bab rfl hd1 h2

theorem clash_D_B {r1 r2 : List Tok} {st1 st2 : DT} {s : List Char} {a b : DT}
    (h1 : parseToks (Tok.D :: r1) st1 s = some a)
    (h2 : parseToks (Tok.B :: r2) st2 s = some b) : False := by
  obtain ⟨c, t, hs, hd⟩ := head_digit_of_D h1
  exact clash_digit_B hs hd h2

theorem clash_D_Bab {r1 r2 : List Tok} {st1 st2 : DT} {s : List Char} {a b : DT}
    (h1 : parseToks (Tok.D :: r1) st1 s = some a)
    (h2 : parseToks (Tok.Bab :: r2) st2 s = some b) : False := by
  obtain ⟨c, t, hs, hd⟩ := head_digit_of_D h1
  exact clash_digit_Bab hs hd h2

/-! ## Reduction lemmas on pre-shaped input -/

theorem red_Y {r : List Tok} {st : DT} {a b c e : Char} {s' : List Char} {dt : DT}
    (h : parseToks (Tok.Y :: r) st (a :: b :: c :: e :: s') = some dt) :
    a.isDigit = true ∧ b.isDigit = true ∧ c.isDigit = true ∧ e.isDigit = true ∧
      parseToks r { st with y := 1000 * dval a + 100 * dval b + 10 * dval c + dval e } s'
        = some dt := by
  simp only [parseToks] at h
  split at h
  · rename_i hc
    exact ⟨hc.1, hc.2.1, hc.2.2.1, hc.2.2.2, h⟩
  · exact absurd h (by simp)

theorem red_lit {c : Char} {r : List Tok} {st : DT} {x : Char} {s' : List Char} {dt : DT}
    (h : parseToks (Tok.lit c :: r) st (x :: s') = some dt) :
    x = c ∧ parseToks r st s' = some dt := by
  simp only [parseToks] at h
  split at h
  · rename_i hx
    exact ⟨hx, h⟩
  · exact absurd h (by simp)

theorem red_ws {r : List Tok} {st : DT} {x : Char} {s' : List Char} {dt : DT}
    (h : parseToks (Tok.ws :: r) st (x :: s') = some dt) :
    x.isWhitespace = true ∧
      parseToks r st ((x :: s').dropWhile Char.isWhitespace) = some dt := by
  simp only [parseToks] at h
  split at h
  · rename_i hx
    exact ⟨hx, h⟩
  · exact absurd h (by simp)

theorem parse_lit_nil {c : Char} {r : List Tok} {st : DT} {dt : DT}
    (h : parseToks (Tok.lit c :: r) st [] = some dt) : False := by
  simp [parseToks] at h

theorem parse_ws_nil {r : List Tok} {st : DT} {dt : DT}
    (h : parseToks (Tok.ws :: r) st [] = some dt) : False := by
  simp [parseToks] at h

/-! ## Disjointness of the year-first formats -/

theorem clash_Yend_Ylit {c : Char} {r2 : List Tok} {st1 st2 : DT} {s : List Char}
    {a b : DT} (h1 : parseToks [Tok.Y] st1 s = some a)
    (h2 : parseToks (Tok.Y :: Tok.lit c :: r2) st2 s = some b) : False := by
  obtain ⟨x1, x2, x3, x4, s5, rfl, -, -, -, -, hcont1⟩ := inv_Y h1
  obtain ⟨rfl, -⟩ := inv_nil hcont1
  obtain ⟨-, -, -, -, hcont2⟩ := red_Y h2
  exact parse_lit_nil hcont2

theorem clash_Yend_Yws {r2 : List Tok} {st1 st2 : DT} {s : List Char}
    {a b : DT} (h1 : parseToks [Tok.Y] st1 s = some a)
    (h2 : parseToks (Tok.Y :: Tok.ws :: r2) st2 s = some b) : False := by
  obtain ⟨x1, x2, x3, x4, s5, rfl, -, -, -, -, hcont1⟩ := inv_Y h1
  obtain ⟨rfl, -⟩ := inv_nil hcont1
  obtain ⟨-, -, -, -, hcont2⟩ := red_Y h2
  exact parse_ws_nil hcont2

theorem clash_Ylit_Yws {c : Char} {r1 r2 : List Tok} {st1 st2 : DT} {s : List Char}
    {a b : DT} (hc : c.isWhitespace = false)
    (h1 : parseToks (Tok.Y :: Tok.lit c :: r1) st1 s = some a)
    (h2 : parseToks (Tok.Y :: Tok.ws :: r2) st2 s = some b) : False := by
  obtain ⟨x1, x2, x3, x4, s5, rfl, -, -, -, -, hcont1⟩ := inv_Y h1
  obtain ⟨u, hu, -⟩ := inv_lit hcont1
  obtain ⟨-, -, -, -, hcont2⟩ := red_Y h2
  rw [hu] at hcont2
  obtain ⟨hws, -⟩ := red_ws hcont2
  rw [hws] at hc
  simp at hc

theorem clash_f2_f3 {c : Char} {r2 : List Tok} {st1 st2 : DT} {s : List Char}
    {a b : DT} (hcdig : c.isDigit = false)
    (h1 : parseToks [Tok.Y, Tok.lit '-', Tok.M] st1 s = some a)
    (h2 : parseToks (Tok.Y :: Tok.lit '-' :: Tok.M :: Tok.lit c :: r2) st2 s = some b) :
    False := by
  obtain ⟨x1, x2, x3, x4, s5, rfl, -, -, -, -, hcont1⟩ := inv_Y h1
  obtain ⟨u, hu, hcont1'⟩ := inv_lit hcont1
  obtain ⟨-, -, -, -, hcont2⟩ := red_Y h2
  rw [hu] at hcont2
  obtain ⟨-, hcont2'⟩ := red_lit hcont2
  rcases inv_M hcont1' with ⟨d1, d2, u', rfl, -, hd2, -, -, hfin1⟩ | ⟨d1, u', rfl, -, -, hfin1⟩
  · obtain ⟨rfl, -⟩ := inv_nil hfin1
    rcases inv_M hcont2' with ⟨e1, e2, u'', heq, -, -, -, -, hfin2⟩ | ⟨e1, u'', heq, -, -, hfin2⟩
    · simp only [List.cons.injEq] at heq
      obtain ⟨-, -, rfl⟩ := heq
      exact parse_lit_nil hfin2
    · simp only [List.cons.injEq] at heq
      obtain ⟨-, rfl⟩ := heq
      obtain ⟨t, ht, -⟩ := inv_lit hfin2
      simp only [List.cons.injEq] at ht
      obtain ⟨rfl, -⟩ := ht
      rw [hd2] at hcdig
      simp at hcdig
  · obtain ⟨rfl, -⟩ := inv_nil hfin1
    rcases inv_M hcont2' with ⟨e1, e2, u'', heq, -, -, -, -, hfin2⟩ | ⟨e1, u'', heq, -, -, hfin2⟩
    · simp at heq
    · simp only [List.cons.injEq] at heq
      obtain ⟨-, rfl⟩ := heq
      exact parse_lit_nil hfin2

/-! ## Agreement of the `%B`/`%b` siblings -/

theorem append_eq_append_of_le {l1 r1 l2 r2 : List Char}
    (h : l1 ++ r1 = l2 ++ r2) (hl : l2.length ≤ l1.length) :
    l2 = l1.take l2.length ∧ r2 = l1.drop l2.length ++ r1 := by
  constructor
  · have ht := congrArg (List.take l2.length) h
    rw [List.take_append_eq_append_take, List.take_append_eq_append_take,
      Nat.sub_eq_zero_of_le hl, Nat.sub_self, List.take_zero, List.take_zero,
      List.append_nil, List.append_nil, List.take_length] at ht
    exact ht.symm
  · have hd := congrArg (List.drop l2.length) h
    rw [List.drop_append_eq_append_drop, List.drop_append_eq_append_drop,
      Nat.sub_eq_zero_of_le hl, Nat.sub_self, List.drop_zero, List.drop_zero,
      List.drop_length, List.nil_append] at hd
    exact hd.symm

theorem names_end {st1 st2 : DT} {u : List Char} {a b : DT}
    (h1 : parseToks [Tok.B] st1 u = some a)
    (h2 : parseToks [Tok.Bab] st2 u = some b) :
    a = { st1 with m := 5 } ∧ b = { st2 with m := 5 } := by
  obtain ⟨nm, mo, s1, hmemF, hstrip1, hcont1⟩ := inv_B h1
  obtain ⟨ab, mo', s2, hmemA, hstrip2, hcont2⟩ := inv_Bab h2
  obtain ⟨rfl, ha⟩ := inv_nil hcont1
  obtain ⟨rfl, hb⟩ := inv_nil hcont2
  obtain ⟨pre1, hs1, hmap1⟩ := stripName_some hstrip1
  obtain ⟨pre2, hs2, hmap2⟩ := stripName_some hstrip2
  rw [List.append_nil] at hs1 hs2
  have hpre : pre1 = pre2 := hs1.symm.trans hs2
  have hnmab : nm = ab := by rw [← hmap1, ← hmap2, hpre]
  obtain ⟨h5, h5'⟩ := months_inter _ hmemF _ hmemA hnmab
  have hmo : mo = 5 := h5
  have hmo' : mo' = 5 := h5'
  rw [hmo] at ha
  rw [hmo'] at hb
  exact ⟨ha, hb⟩

theorem name_agree {r1 r2 : List Tok} {st1 st2 : DT} {s : List Char} {a b : DT}
    (h1 : parseToks (Tok.B :: Tok.ws :: r1) st1 s = some a)
    (h2 : parseToks (Tok.Bab :: Tok.ws :: r2) st2 s = some b) :
    ∃ t, parseToks (Tok.ws :: r1) { st1 with m := 5 } t = some a ∧
      parseToks (Tok.ws :: r2) { st2 with m := 5 } t = some b := by
  obtain ⟨nm, mo, s1, hmemF, hstrip1, hcont1⟩ := inv_B h1
  obtain ⟨ab, mo', s2, hmemA, hstrip2, hcont2⟩ := inv_Bab h2
  obtain ⟨pre1, hs1, hmap1⟩ := stripName_some hstrip1
  obtain ⟨pre2, hs2, hmap2⟩ := stripName_some hstrip2
  have hlen2 : pre2.length = 3 := by
    have hl := monthsAbbr_length _ hmemA
    rw [← hmap2] at hl
    simpa using hl
  have hlen1 : 3 ≤ pre1.length := by
    have hl := monthsFull_length _ hmemF
    rw [← hmap1] at hl
    simpa using hl
  obtain ⟨hpre2, hs2'⟩ :=
    append_eq_append_of_le (hs1.symm.trans hs2) (by omega)
  by_cases hgt : 3 < pre1.length
  · exfalso
    rcases hdrop : pre1.drop pre2.length with _ | ⟨c3, rest3⟩
    · have := congrArg List.length hdrop
      simp only [List.length_drop] at this
      simp at this
      omega
    have hs2'' : s2 = c3 :: (rest3 ++ s1) := by
      rw [hs2', hdrop]
      rfl
    obtain ⟨w, t', heqw, hws, -⟩ := inv_ws hcont2
    rw [hs2''] at heqw
    simp only [List.cons.injEq] at heqw
    obtain ⟨rfl, -⟩ := heqw
    have hc3mem : c3 ∈ pre1 := by
      apply List.drop_subset pre2.length
      rw [hdrop]
      exact List.mem_cons_self _ _
    have hmem1 : c3.toLower ∈ nm := by
      rw [← hmap1]
      exact List.mem_map_of_mem _ hc3mem
    have hnw := (monthsFull_chars _ hmemF _ hmem1).2
    rw [ws_toLower c3 hws] at hnw
    rw [hws] at hnw
    simp at hnw
  · have hlen1' : pre1.length = 3 := by omega
    have hpre : pre2 = pre1 := by
      rw [hpre2, hlen2, ← hlen1', List.take_length]
    have hnmab : nm = ab := by rw [← hmap1, ← hmap2, hpre]
    obtain ⟨h5, h5'⟩ := months_inter _ hmemF _ hmemA hnmab
    have hmo : mo = 5 := h5
    have hmo' : mo' = 5 := h5'
    have hs12 : s2 = s1 := by
      rw [hs2', hlen2, ← hlen1', List.drop_length, List.nil_append]
    refine ⟨s1, ?_, ?_⟩
    · rw [← hmo]
      exact hcont1
    · rw [hs12] at hcont2
      rw [← hmo']
      exact hcont2

/-- `"%Y %B"` and `"%Y %b"` agree whenever both parse. -/
theorem agree_f12_f13 {st : DT} {s : List Char} {a b : DT}
    (h1 : parseToks fmtYB st s = some a)
    (h2 : parseToks fmtYb st s = some b) : a = b := by
  obtain ⟨x1, x2, x3, x4, s5, rfl, -, -, -, -, hcont1⟩ := inv_Y h1
  obtain ⟨-, -, -, -, hcont2⟩ := red_Y h2
  obtain ⟨w, t, heqw, -, hcont1'⟩ := inv_ws hcont1
  rw [heqw] at hcont2
  obtain ⟨-, hcont2'⟩ := red_ws hcont2
  obtain ⟨ha, hb⟩ := names_end hcont1' hcont2'
  rw [ha, hb]

/-- Two parses that both expect whitespace at the same position continue on
the same remainder. -/
theorem ws_sync {r1 r2 : List Tok} {st1 st2 : DT} {t : List Char} {a b : DT}
    (h1 : parseToks (Tok.ws :: r1) st1 t = some a)
    (h2 : parseToks (Tok.ws :: r2) st2 t = some b) :
    ∃ u, parseToks r1 st1 u = some a ∧ parseToks r2 st2 u = some b := by
  obtain ⟨w, t', heq, -, h1'⟩ := inv_ws h1
  rw [heq] at h2
  obtain ⟨-, h2'⟩ := red_ws h2
  exact ⟨_, h1', h2'⟩

theorem B_det {r1 r2 : List Tok} {st1 st2 : DT} {s : List Char} {a b : DT}
    (h1 : parseToks (Tok.B :: r1) st1 s = some a)
    (h2 : parseToks (Tok.B :: r2) st2 s = some b) :
    ∃ mo t, parseToks r1 { st1 with m := mo } t = some a ∧
      parseToks r2 { st2 with m := mo } t = some b := by
  rcases hm : matchName monthsFull s with _ | ⟨mo, t⟩
  · simp only [parseToks, hm] at h1
    exact absurd h1 (by simp)
  · simp only [parseToks, hm] at h1 h2
    exact ⟨mo, t, h1, h2⟩

theorem Bab_det {r1 r2 : List Tok} {st1 st2 : DT} {s : List Char} {a b : DT}
    (h1 : parseToks (Tok.Bab :: r1) st1 s = some a)
    (h2 : parseToks (Tok.Bab :: r2) st2 s = some b) :
    ∃ mo t, parseToks r1 { st1 with m := mo } t = some a ∧
      parseToks r2 { st2 with m := mo } t = some b := by
  rcases hm : matchName monthsAbbr s with _ | ⟨mo, t⟩
  · simp only [parseToks, hm] at h1
    exact absurd h1 (by simp)
  · simp only [parseToks, hm] at h1 h2
    exact ⟨mo, t, h1, h2⟩

/-- `"%d %B %Y"` and `"%d %b %Y"` agree whenever both parse. -/
theorem agree_f8_f9 {st : DT} {s : List Char} {a b : DT}
    (h1 : parseToks fmtdBY st s = some a)
    (h2 : parseToks fmtdbY st s = some b) : a = b := by
  rcases inv_D h1 with ⟨d1, d2, s', rfl, hdig1, hdig2, -, -, hc1⟩ |
    ⟨d1, s', rfl, hdig1, -, hc1⟩
  · rcases inv_D h2 with ⟨e1, e2, s'', heq, -, -, -, -, hc2⟩ |
      ⟨e1, s'', heq, -, -, hc2⟩
    · simp only [List.cons.injEq] at heq
      obtain ⟨rfl, rfl, rfl⟩ := heq
      obtain ⟨u, hc1', hc2'⟩ := ws_sync hc1 hc2
      obtain ⟨t', hca, hcb⟩ := name_agree hc1' hc2'
      exact Option.some.inj (hca.symm.trans hcb)
    · simp only [List.cons.injEq] at heq
      obtain ⟨rfl, rfl⟩ := heq
      obtain ⟨hws, -⟩ := red_ws hc2
      simp [ws_not_digit _ hws] at hdig2
  · rcases inv_D h2 with ⟨e1, e2, s'', heq, -, he2, -, -, hc2⟩ |
      ⟨e1, s'', heq, -, -, hc2⟩
    · simp only [List.cons.injEq] at heq
      obtain ⟨rfl, rfl⟩ := heq
      obtain ⟨hws, -⟩ := red_ws hc1
      simp [ws_not_digit _ hws] at he2
    · simp only [List.cons.injEq] at heq
      obtain ⟨rfl, rfl⟩ := heq
      obtain ⟨u, hc1', hc2'⟩ := ws_sync hc1 hc2
      obtain ⟨t', hca, hcb⟩ := name_agree hc1' hc2'
      exact Option.some.inj (hca.symm.trans hcb)

theorem D_comma_vs_D_ws {r1 r2 : List Tok} {st1 st2 : DT} {u : List Char} {a b : DT}
    (h1 : parseToks (Tok.D :: Tok.lit ',' :: r1) st1 u = some a)
    (h2 : parseToks (Tok.D :: Tok.ws :: r2) st2 u = some b) : False := by
  rcases inv_D h1 with ⟨d1, d2, u1, rfl, -, hdig2, -, -, hc1⟩ |
    ⟨d1, u1, rfl, -, -, hc1⟩
  · obtain ⟨t1, ht1, -⟩ := inv_lit hc1
    rcases inv_D h2 with ⟨e1, e2, u2, heq, -, -, -, -, hc2⟩ | ⟨e1, u2, heq, -, -, hc2⟩
    · simp only [List.cons.injEq] at heq
      obtain ⟨rfl, rfl, rfl⟩ := heq
      rw [ht1] at hc2
      obtain ⟨hws, -⟩ := red_ws hc2
      exact absurd hws (by decide)
    · simp only [List.cons.injEq] at heq
      obtain ⟨rfl, rfl⟩ := heq
      obtain ⟨hws, -⟩ := red_ws hc2
      simp [ws_not_digit _ hws] at hdig2
  · obtain ⟨t1, ht1, -⟩ := inv_lit hc1
    rcases inv_D h2 with ⟨e1, e2, u2, heq, -, he2, -, -, hc2⟩ | ⟨e1, u2, heq, -, -, hc2⟩
    · rw [ht1] at heq
      simp only [List.cons.injEq] at heq
      obtain ⟨rfl, heq2, -⟩ := heq
      rw [← heq2] at he2
      exact absurd he2 (by decide)
    · simp only [List.cons.injEq] at heq
      obtain ⟨rfl, rfl⟩ := heq
      rw [ht1] at hc2
      obtain ⟨hws, -⟩ := red_ws hc2
      exact absurd hws (by decide)

theorem D_comma_vs_Y {r1 r2 : List Tok} {st1 st2 : DT} {u : List Char} {a b : DT}
    (h1 : parseToks (Tok.D :: Tok.lit ',' :: r1) st1 u = some a)
    (h2 : parseToks (Tok.Y :: r2) st2 u = some b) : False := by
  obtain ⟨y1, y2, y3, y4, u4, rfl, -, hd2, hd3, -, -⟩ := inv_Y h2
  rcases inv_D h1 with ⟨d1, d2, u1, heq, -, -, -, -, hc1⟩ | ⟨d1, u1, heq, -, -, hc1⟩
  · simp only [List.cons.injEq] at heq
    obtain ⟨-, -, rfl⟩ := heq
    obtain ⟨t1, ht1, -⟩ := inv_lit hc1
    simp only [List.cons.injEq] at ht1
    obtain ⟨h3, -⟩ := ht1
    rw [h3] at hd3
    exact absurd hd3 (by decide)
  · simp only [List.cons.injEq] at heq
    obtain ⟨-, rfl⟩ := heq
    obtain ⟨t1, ht1, -⟩ := inv_lit hc1
    simp only [List.cons.injEq] at ht1
    obtain ⟨h2', -⟩ := ht1
    rw [h2'] at hd2
    exact absurd hd2 (by decide)

/-! ## Pairwise resolution of the month-name-first formats -/

theorem agree_f4_f5 {st : DT} {s : List Char} {a b : DT}
    (h1 : parseToks fmtBdcY st s = some a)
    (h2 : parseToks fmtbdcY st s = some b) : a = b := by
  obtain ⟨t, hca, hcb⟩ := name_agree h1 h2
  exact Option.some.inj (hca.symm.trans hcb)

theorem agree_f6_f7 {st : DT} {s : List Char} {a b : DT}
    (h1 : parseToks fmtBdY st s = some a)
    (h2 : parseToks fmtbdY st s = some b) : a = b := by
  obtain ⟨t, hca, hcb⟩ := name_agree h1 h2
  exact Option.some.inj (hca.symm.trans hcb)

theorem agree_f10_f11 {st : DT} {s : List Char} {a b : DT}
    (h1 : parseToks fmtBY st s = some a)
    (h2 : parseToks fmtbY st s = some b) : a = b := by
  obtain ⟨t, hca, hcb⟩ := name_agree h1 h2
  exact Option.some.inj (hca.symm.trans hcb)

theorem clash_f4_f6 {st1 st2 : DT} {s : List Char} {a b : DT}
    (h1 : parseToks fmtBdcY st1 s = some a)
    (h2 : parseToks fmtBdY st2 s = some b) : False := by
  obtain ⟨mo, t, hc1, hc2⟩ := B_det h1 h2
  obtain ⟨u, hc1', hc2'⟩ := ws_sync hc1 hc2
  exact D_comma_vs_D_ws hc1' hc2'

theorem clash_f5_f7 {st1 st2 : DT} {s : List Char} {a b : DT}
    (h1 : parseToks fmtbdcY st1 s = some a)
    (h2 : parseToks fmtbdY st2 s = some b) : False := by
  obtain ⟨mo, t, hc1, hc2⟩ := Bab_det h1 h2
  obtain ⟨u, hc1', hc2'⟩ := ws_sync hc1 hc2
  exact D_comma_vs_D_ws hc1' hc2'

theorem clash_f4_f7 {st1 st2 : DT} {s : List Char} {a b : DT}
    (h1 : parseToks fmtBdcY st1 s = some a)
    (h2 : parseToks fmtbdY st2 s = some b) : False := by
  obtain ⟨t, hc1, hc2⟩ := name_agree h1 h2
  obtain ⟨u, hc1', hc2'⟩ := ws_sync hc1 hc2
  exact D_comma_vs_D_ws hc1' hc2'

theorem clash_f6_f5 {st1 st2 : DT} {s : List Char} {a b : DT}
    (h1 : parseToks fmtBdY st1 s = some a)
    (h2 : parseToks fmtbdcY st2 s = some b) : False := by
  obtain ⟨t, hc1, hc2⟩ := name_agree h1 h2
  obtain ⟨u, hc1', hc2'⟩ := ws_sync hc1 hc2
  exact D_comma_vs_D_ws hc2' hc1'

theorem clash_f4_f10 {st1 st2 : DT} {s : List Char} {a b : DT}
    (h1 : parseToks fmtBdcY st1 s = some a)
    (h2 : parseToks fmtBY st2 s = some b) : False := by
  obtain ⟨mo, t, hc1, hc2⟩ := B_det h1 h2
  obtain ⟨u, hc1', hc2'⟩ := ws_sync hc1 hc2
  exact D_comma_vs_Y hc1' hc2'

theorem clash_f5_f11 {st1 st2 : DT} {s : List Char} {a b : DT}
    (h1 : parseToks fmtbdcY st1 s = some a)
    (h2 : parseToks fmtbY st2 s = some b) : False := by
  obtain ⟨mo, t, hc1, hc2⟩ := Bab_det h1 h2
  obtain ⟨u, hc1', hc2'⟩ := ws_sync hc1 hc2
  exact D_comma_vs_Y hc1' hc2'

theorem clash_f4_f11 {st1 st2 : DT} {s : List Char} {a b : DT}
    (h1 : parseToks fmtBdcY st1 s = some a)
    (h2 : parseToks fmtbY st2 s = some b) : False := by
  obtain ⟨t, hc1, hc2⟩ := name_agree h1 h2
  obtain ⟨u, hc1', hc2'⟩ := ws_sync hc1 hc2
  exact D_comma_vs_Y hc1' hc2'

theorem clash_f10_f5 {st1 st2 : DT} {s : List Char} {a b : DT}
    (h1 : parseToks fmtBY st1 s = some a)
    (h2 : parseToks fmtbdcY st2 s = some b) : False := by
  obtain ⟨t, hc1, hc2⟩ := name_agree h1 h2
  obtain ⟨u, hc1', hc2'⟩ := ws_sync hc1 hc2
  exact D_comma_vs_Y hc2' hc1'

theorem clash_f6_f10 {st1 st2 : DT} {s : List Char} {a b : DT}
    (h1 : parseToks fmtBdY st1 s = some a)
    (h2 : parseToks fmtBY st2 s = some b) : False := by
  obtain ⟨mo, t, hc1, hc2⟩ := B_det h1 h2
  obtain ⟨u, hc1', hc2'⟩ := ws_sync hc1 hc2
  exact clash_Y_D hc2' hc1'

theorem clash_f7_f11 {st1 st2 : DT} {s : List Char} {a b : DT}
    (h1 : parseToks fmtbdY st1 s = some a)
    (h2 : parseToks fmtbY st2 s = some b) : False := by
  obtain ⟨mo, t, hc1, hc2⟩ := Bab_det h1 h2
  obtain ⟨u, hc1', hc2'⟩ := ws_sync hc1 hc2
  exact clash_Y_D hc2' hc1'

theorem clash_f6_f11 {st1 st2 : DT} {s : List Char} {a b : DT}
    (h1 : parseToks fmtBdY st1 s = some a)
    (h2 : parseToks fmtbY st2 s = some b) : False := by
  obtain ⟨t, hc1, hc2⟩ := name_agree h1 h2
  obtain ⟨u, hc1', hc2'⟩ := ws_sync hc1 hc2
  exact clash_Y_D hc2' hc1'

theorem clash_f10_f7 {st1 st2 : DT} {s : List Char} {a b : DT}
    (h1 : parseToks fmtBY st1 s = some a)
    (h2 : parseToks fmtbdY st2 s = some b) : False := by
  obtain ⟨t, hc1, hc2⟩ := name_agree h1 h2
  obtain ⟨u, hc1', hc2'⟩ := ws_sync hc1 hc2
  exact clash_Y_D hc1' hc2'


set_option maxHeartbeats 1600000 in
/-- Any two formats from the list that both parse the same string produce the
same `DT`: the siblings that can overlap (`%B`/`%b` pairs) agree on the value,
and every other pair is disjoint. -/
theorem parse_agree {f g : List Tok} (hf : f ∈ formats) (hg : g ∈ formats)
    {s : List Char} {a b : DT}
    (h1 : parseToks f dtDefault s = some a)
    (h2 : parseToks g dtDefault s = some b) : a = b := by
  simp only [formats, List.mem_cons, List.not_mem_nil, or_false] at hf hg
  rcases hf with rfl | rfl | rfl | rfl | rfl | rfl | rfl | rfl | rfl | rfl | rfl | rfl | rfl
  · rcases hg with rfl | rfl | rfl | rfl | rfl | rfl | rfl | rfl | rfl | rfl | rfl | rfl | rfl
    · rw [h1] at h2
      exact Option.some.inj h2
    · exact (clash_Yend_Ylit h1 h2).elim
    · exact (clash_Yend_Ylit h1 h2).elim
    · exact (clash_Y_B h1 h2).elim
    · exact (clash_Y_Bab h1 h2).elim
    · exact (clash_Y_B h1 h2).elim
    · exact (clash_Y_Bab h1 h2).elim
    · exact (clash_Y_D h1 h2).elim
    · exact (clash_Y_D h1 h2).elim
    · exact (clash_Y_B h1 h2).elim
    · exact (clash_Y_Bab h1 h2).elim
    · exact (clash_Yend_Yws h1 h2).elim
    · exact (clash_Yend_Yws h1 h2).elim
  · rcases hg with rfl | rfl | rfl | rfl | rfl | rfl | rfl | rfl | rfl | rfl | rfl | rfl | rfl
    · exact (clash_Yend_Ylit h2 h1).elim
    · rw [h1] at h2
      exact Option.some.inj h2
    · exact (clash_f2_f3 (by decide) h1 h2).elim
    · exact (clash_Y_B h1 h2).elim
    · exact (clash_Y_Bab h1 h2).elim
    · exact (clash_Y_B h1 h2).elim
    · exact (clash_Y_Bab h1 h2).elim
    · exact (clash_Y_D h1 h2).elim
    · exact (clash_Y_D h1 h2).elim
    · exact (clash_Y_B h1 h2).elim
    · exact (clash_Y_Bab h1 h2).elim
    · exact (clash_Ylit_Yws (by decide) h1 h2).elim
    · exact (clash_Ylit_Yws (by decide) h1 h2).elim
  · rcases hg with rfl | rfl | rfl | rfl | rfl | rfl | rfl | rfl | rfl | rfl | rfl | rfl | rfl
    · exact (clash_Yend_Ylit h2 h1).elim
    · exact (clash_f2_f3 (by decide) h2 h1).elim
    · rw [h1] at h2
      exact Option.some.inj h2
    · exact (clash_Y_B h1 h2).elim
    · exact (clash_Y_Bab h1 h2).elim
    · exact (clash_Y_B h1 h2).elim
    · exact (clash_Y_Bab h1 h2).elim
    · exact (clash_Y_D h1 h2).elim
    · exact (clash_Y_D h1 h2).elim
    · exact (clash_Y_B h1 h2).elim
    · exact (clash_Y_Bab h1 h2).elim
    · exact (clash_Ylit_Yws (by decide) h1 h2).elim
    · exact (clash_Ylit_Yws (by decide) h1 h2).elim
  · rcases hg with rfl | rfl | rfl | rfl | rfl | rfl | rfl | rfl | rfl | rfl | rfl | rfl | rfl
    · exact (clash_Y_B h2 h1).elim
    · exact (clash_Y_B h2 h1).elim
    · exact (clash_Y_B h2 h1).elim
    · rw [h1] at h2
      exact Option.some.inj h2
    · exact agree_f4_f5 h1 h2
    · exact (clash_f4_f6 h1 h2).elim
    · exact (clash_f4_f7 h1 h2).elim
    · exact (clash_D_B h2 h1).elim
    · exact (clash_D_B h2 h1).elim
    · exact (clash_f4_f10 h1 h2).elim
    · exact (clash_f4_f11 h1 h2).elim
    · exact (clash_Y_B h2 h1).elim
    · exact (clash_Y_B h2 h1).elim
  · rcases hg with rfl | rfl | rfl | rfl | rfl | rfl | rfl | rfl | rfl | rfl | rfl | rfl | rfl
    · exact (clash_Y_Bab h2 h1).elim
    · exact (clash_Y_Bab h2 h1).elim
    · exact (clash_Y_Bab h2 h1).elim
    · exact (agree_f4_f5 h2 h1).symm
    · rw [h1] at h2
      exact Option.some.inj h2
    · exact (clash_f6_f5 h2 h1).elim
    · exact (clash_f5_f7 h1 h2).elim
    · exact (clash_D_Bab h2 h1).elim
    · exact (clash_D_Bab h2 h1).elim
    · exact (clash_f10_f5 h2 h1).elim
    · exact (clash_f5_f11 h1 h2).elim
    · exact (clash_Y_Bab h2 h1).elim
    · exact (clash_Y_Bab h2 h1).elim
  · rcases hg with rfl | rfl | rfl | rfl | rfl | rfl | rfl | rfl | rfl | rfl | rfl | rfl | rfl
    · exact (clash_Y_B h2 h1).elim
    · exact (clash_Y_B h2 h1).elim
    · exact (clash_Y_B h2 h1).elim
    · exact (clash_f4_f6 h2 h1).elim
    · exact (clash_f6_f5 h1 h2).elim
    · rw [h1] at h2
      exact Option.some.inj h2
    · exact agree_f6_f7 h1 h2
    · exact (clash_D_B h2 h1).elim
    · exact (clash_D_B h2 h1).elim
    · exact (clash_f6_f10 h1 h2).elim
    · exact (clash_f6_f11 h1 h2).elim
    · exact (clash_Y_B h2 h1).elim
    · exact (clash_Y_B h2 h1).elim
  · rcases hg with rfl | rfl | rfl | rfl | rfl | rfl | rfl | rfl | rfl | rfl | rfl | rfl | rfl
    · exact (clash_Y_Bab h2 h1).elim
    · exact (clash_Y_Bab h2 h1).elim
    · exact (clash_Y_Bab h2 h1).elim
    · exact (clash_f4_f7 h2 h1).elim
    · exact (clash_f5_f7 h2 h1).elim
    · exact (agree_f6_f7 h2 h1).symm
    · rw [h1] at h2
      exact Option.some.inj h2
    · exact (clash_D_Bab h2 h1).elim
    · exact (clash_D_Bab h2 h1).elim
    · exact (clash_f10_f7 h2 h1).elim
    · exact (clash_f7_f11 h1 h2).elim
    · exact (clash_Y_Bab h2 h1).elim
    · exact (clash_Y_Bab h2 h1).elim
  · rcases hg with rfl | rfl | rfl | rfl | rfl | rfl | rfl | rfl | rfl | rfl | rfl | rfl | rfl
    · exact (clash_Y_D h2 h1).elim
    · exact (clash_Y_D h2 h1).elim
    · exact (clash_Y_D h2 h1).elim
    · exact (clash_D_B h1 h2).elim
    · exact (clash_D_Bab h1 h2).elim
    · exact (clash_D_B h1 h2).elim
    · exact (clash_D_Bab h1 h2).elim
    · rw [h1] at h2
      exact Option.some.inj h2
    · exact agree_f8_f9 h1 h2
    · exact (clash_D_B h1 h2).elim
    · exact (clash_D_Bab h1 h2).elim
    · exact (clash_Y_D h2 h1).elim
    · exact (clash_Y_D h2 h1).elim
  · rcases hg with rfl | rfl | rfl | rfl | rfl | rfl | rfl | rfl | rfl | rfl | rfl | rfl | rfl
    · exact (clash_Y_D h2 h1).elim
    · exact (clash_Y_D h2 h1).elim
    · exact (clash_Y_D h2 h1).elim
    · exact (clash_D_B h1 h2).elim
    · exact (clash_D_Bab h1 h2).elim
    · exact (clash_D_B h1 h2).elim
    · exact (clash_D_Bab h1 h2).elim
    · exact (agree_f8_f9 h2 h1).symm
    · rw [h1] at h2
      exact Option.some.inj h2
    · exact (clash_D_B h1 h2).elim
    · exact (clash_D_Bab h1 h2).elim
    · exact (clash_Y_D h2 h1).elim
    · exact (clash_Y_D h2 h1).elim
  · rcases hg with rfl | rfl | rfl | rfl | rfl | rfl | rfl | rfl | rfl | rfl | rfl | rfl | rfl
    · exact (clash_Y_B h2 h1).elim
    · exact (clash_Y_B h2 h1).elim
    · exact (clash_Y_B h2 h1).elim
    · exact (clash_f4_f10 h2 h1).elim
    · exact (clash_f10_f5 h1 h2).elim
    · exact (clash_f6_f10 h2 h1).elim
    · exact (clash_f10_f7 h1 h2).elim
    · exact (clash_D_B h2 h1).elim
    · exact (clash_D_B h2 h1).elim
    · rw [h1] at h2
      exact Option.some.inj h2
    · exact agree_f10_f11 h1 h2
    · exact (clash_Y_B h2 h1).elim
    · exact (clash_Y_B h2 h1).elim
  · rcases hg with rfl | rfl | rfl | rfl | rfl | rfl | rfl | rfl | rfl | rfl | rfl | rfl | rfl
    · exact (clash_Y_Bab h2 h1).elim
    · exact (clash_Y_Bab h2 h1).elim
    · exact (clash_Y_Bab h2 h1).elim
    · exact (clash_f4_f11 h2 h1).elim
    · exact (clash_f5_f11 h2 h1).elim
    · exact (clash_f6_f11 h2 h1).elim
    · exact (clash_f7_f11 h2 h1).elim
    · exact (clash_D_Bab h2 h1).elim
    · exact (clash_D_Bab h2 h1).elim
    · exact (agree_f10_f11 h2 h1).symm
    · rw [h1] at h2
      exact Option.some.inj h2
    · exact (clash_Y_Bab h2 h1).elim
    · exact (clash_Y_Bab h2 h1).elim
  · rcases hg with rfl | rfl | rfl | rfl | rfl | rfl | rfl | rfl | rfl | rfl | rfl | rfl | rfl
    · exact (clash_Yend_Yws h2 h1).elim
    · exact (clash_Ylit_Yws (by decide) h2 h1).elim
    · exact (clash_Ylit_Yws (by decide) h2 h1).elim
    · exact (clash_Y_B h1 h2).elim
    · exact (clash_Y_Bab h1 h2).elim
    · exact (clash_Y_B h1 h2).elim
    · exact (clash_Y_Bab h1 h2).elim
    · exact (clash_Y_D h1 h2).elim
    · exact (clash_Y_D h1 h2).elim
    · exact (clash_Y_B h1 h2).elim
    · exact (clash_Y_Bab h1 h2).elim
    · rw [h1] at h2
      exact Option.some.inj h2
    · exact agree_f12_f13 h1 h2
  · rcases hg with rfl | rfl | rfl | rfl | rfl | rfl | rfl | rfl | rfl | rfl | rfl | rfl | rfl
    · exact (clash_Yend_Yws h2 h1).elim
    · exact (clash_Ylit_Yws (by decide) h2 h1).elim
    · exact (clash_Ylit_Yws (by decide) h2 h1).elim
    · exact (clash_Y_B h1 h2).elim
    · exact (clash_Y_Bab h1 h2).elim
    · exact (clash_Y_B h1 h2).elim
    · exact (clash_Y_Bab h1 h2).elim
    · exact (clash_Y_D h1 h2).elim
    · exact (clash_Y_D h1 h2).elim
    · exact (clash_Y_B h1 h2).elim
    · exact (clash_Y_Bab h1 h2).elim
    · exact (agree_f12_f13 h2 h1).symm
    · rw [h1] at h2
      exact Option.some.inj h2

theorem strptime_some {f : List Tok} {s : String} {d : DT}
    (h : strptime f s = some d) : parseToks f dtDefault s.data = some d := by
  unfold strptime at h
  rcases hp : parseToks f dtDefault s.data with _ | dt
  · rw [hp] at h
    simp at h
  · rw [hp] at h
    simp only [Option.ite_none_right_eq_some, Option.some.injEq] at h
    obtain ⟨-, rfl⟩ := h
    rfl

theorem orElseDT_assoc (a b c : Option DT) : ((a <|> b) <|> c) = (a <|> (b <|> c)) := by
  cases a <;> rfl

/-- The left fold that keeps the latest successful parse, expressed through the
first successful parse of the reversed list. -/
theorem foldl_orElse_eq (F : List Tok → Option DT) (l : List (List Tok)) :
    ∀ init : Option DT,
      l.foldl (fun acc f => F f <|> acc) init = ((l.reverse.findSome? F) <|> init) := by
  induction l with
  | nil => intro init; simp [List.findSome?]
  | cons f l ih =>
    intro init
    rw [List.foldl_cons, ih (F f <|> init), List.reverse_cons, List.findSome?_append]
    cases h1 : List.findSome? F l.reverse <;> cases hf : F f <;>
      simp [List.findSome?_cons, List.findSome?_nil, hf]

/-- Since all thirteen formats agree pairwise, the first success over the
reversed format list equals the first success over the list itself. -/
theorem findSome?_reverse_agree (s : String) :
    formats.reverse.findSome? (fun fmt => strptime fmt s)
      = formats.findSome? (fun fmt => strptime fmt s) := by
  rcases h1 : formats.findSome? (fun fmt => strptime fmt s) with _ | a
  · rw [List.findSome?_eq_none_iff] at h1 ⊢
    intro x hx
    exact h1 x (by simpa using hx)
  · obtain ⟨x, hx, hfx⟩ := List.exists_of_findSome?_eq_some h1
    rcases h2 : formats.reverse.findSome? (fun fmt => strptime fmt s) with _ | b
    · rw [List.findSome?_eq_none_iff] at h2
      rw [h2 x (by simpa using hx)] at hfx
      cases hfx
    · obtain ⟨y, hy, hfy⟩ := List.exists_of_findSome?_eq_some h2
      rw [parse_agree (by simpa using hy) hx (strptime_some hfy) (strptime_some hfx)]

/-- The source's keep-the-last-success fold coincides with the first-success
scan on this format list. -/
theorem convert_fold_eq (s : String) :
    formats.foldl (fun date_obj fmt => strptime fmt s <|> date_obj) none
      = formats.findSome? (fun fmt => strptime fmt s) := by
  have h := foldl_orElse_eq (fun fmt => strptime fmt s) formats none
  simp only at h
  rw [h, findSome?_reverse_agree]
  cases formats.findSome? (fun fmt => strptime fmt s) <;> rfl

/-- C3: For every raw date string, the Date Normalizer (convert_to_iso_8601)
attempts the known formats in the fixed priority order of its format list and
returns the result of the first format that successfully parses the string;
although the source's fold keeps the latest successful parse, all formats that
can simultaneously match agree, so the returned value is exactly the
first-success result. -/
theorem convert_returns_first_success (s : String) :
    convert_to_iso_8601 s = convert_first_success s := by
  unfold convert_to_iso_8601 convert_first_success
  rw [convert_fold_eq]
  cases formats.findSome? (fun fmt => strptime fmt s) <;> rfl
